import Mathlib

/-! potion: request proxying, response rewriting and sitemap building

A shallow embedding of `proxy/handler.go` and `proxy/sitemap.go`.

* Go strings are byte sequences: `GoString` is a list of bytes, and `str` turns a literal of
  the source into its UTF-8 bytes.
* The standard library functions the program calls on strings (`strings.Index`,
  `strings.Contains`, `strings.Replace`, `url.QueryEscape`, ...) are written out after their Go
  definitions.
* What the program reaches through the network or through `compress/gzip` and `encoding/json`
  is a field of `Lib`; the values of package `util` are the fields of `Config`.
* A handler is a function from the state of the `http.ResponseWriter` to its next state.
-/

set_option autoImplicit false

namespace Potion

/-! ## Strings -/

/-- A byte. -/
abbrev Byte := Fin 256

/-- A Go `string` (or `[]byte`): a sequence of bytes. -/
abbrev GoString := List Byte

/-- The UTF-8 encoding of a code point. -/
def utf8 (c : Char) : List Byte :=
  let n := c.toNat
  if n < 0x80 then [Fin.ofNat n]
  else if n < 0x800 then [Fin.ofNat (0xC0 + n / 64), Fin.ofNat (0x80 + n % 64)]
  else if n < 0x10000 then
    [Fin.ofNat (0xE0 + n / 4096), Fin.ofNat (0x80 + n / 64 % 64), Fin.ofNat (0x80 + n % 64)]
  else
    [Fin.ofNat (0xF0 + n / 262144), Fin.ofNat (0x80 + n / 4096 % 64),
     Fin.ofNat (0x80 + n / 64 % 64), Fin.ofNat (0x80 + n % 64)]

/-- A string literal of the source, as the bytes Go holds for it. -/
def str (s : String) : GoString := s.data.flatMap utf8

/-- The offset of the first place where `substr` starts in `s`, when there is one. -/
def firstIndex (substr : GoString) : GoString → Option Nat
  | [] => if substr = [] then some 0 else none
  | c :: s =>
    if substr.isPrefixOf (c :: s) then some 0
    else (firstIndex substr s).map (· + 1)

/-- Go `strings.Index`: the index of the first instance of `substr` in `s`, or `-1`. -/
def Index (s substr : GoString) : Int :=
  match firstIndex substr s with
  | some i => (i : Int)
  | none => -1

/-- Go `strings.Contains`, which is `Index(s, substr) >= 0`. -/
def Contains (s substr : GoString) : Bool := decide (Index s substr ≥ 0)

/-- Go `strings.Count` for a non-empty `substr`: the number of non-overlapping instances,
counted from the left. The fuel is the length of `s`. -/
def countFrom (substr : GoString) : Nat → GoString → Nat
  | 0, _ => 0
  | fuel + 1, s =>
    match firstIndex substr s with
    | none => 0
    | some i => 1 + countFrom substr fuel (s.drop (i + substr.length))

/-- Go `strings.Count` (the program only counts non-empty substrings). -/
def Count (s substr : GoString) : Nat := countFrom substr (s.length + 1) s

/-- The loop of Go `strings.Replace` for a non-empty `old`: `n` times, copy up to the next
instance of `old`, write `new`, and go on after the instance; then copy the rest. -/
def replaceLoop (old new : GoString) : Nat → GoString → GoString
  | 0, s => s
  | n + 1, s =>
    match firstIndex old s with
    | none => s
    | some j => s.take j ++ new ++ replaceLoop old new n (s.drop (j + old.length))

/-- Go `strings.Replace(s, old, new, n)` for a non-empty `old`: the first `n` non-overlapping
instances of `old` are replaced by `new`, all of them when `n < 0`. -/
def Replace (s old new : GoString) (n : Int) : GoString :=
  if old = new ∨ n = 0 then s
  else
    let m := Count s old
    if m = 0 then s
    else replaceLoop old new (if n < 0 ∨ (m : Int) < n then m else n.toNat) s

/-- Go `strings.ReplaceAll`, which is `Replace(s, old, new, -1)`. -/
def ReplaceAll (s old new : GoString) : GoString := Replace s old new (-1)


/-! ## net/url -/

/-- Go `url.shouldEscape(c, encodeQueryComponent)`: everything but the unreserved characters
(letters, digits, `-`, `_`, `.`, `~`) is escaped in a query component. -/
def shouldEscape (c : Byte) : Bool :=
  if (97 ≤ c.val ∧ c.val ≤ 122) ∨ (65 ≤ c.val ∧ c.val ≤ 90) ∨ (48 ≤ c.val ∧ c.val ≤ 57) then false
  else if c = 45 ∨ c = 95 ∨ c = 46 ∨ c = 126 then false
  else true

/-- Go `upperhex[n]`, with `upperhex = "0123456789ABCDEF"`. -/
def upperhex (n : Nat) : Byte := (str "0123456789ABCDEF").getD n 0

/-- What the second loop of Go `url.escape(s, encodeQueryComponent)` writes for the byte `c`:
`+` for a space, `%XX` for a byte to escape, the byte itself otherwise. -/
def escapeByte (c : Byte) : GoString :=
  if c = 32 then [43]
  else if shouldEscape c then [37, upperhex (c.val >>> 4), upperhex (c.val &&& 15)]
  else [c]

/-- Go `url.QueryEscape`. -/
def QueryEscape (s : GoString) : GoString := s.flatMap escapeByte

/-- Go `url.ishex`. -/
def ishex (c : Byte) : Bool :=
  (48 ≤ c.val ∧ c.val ≤ 57) ∨ (97 ≤ c.val ∧ c.val ≤ 102) ∨ (65 ≤ c.val ∧ c.val ≤ 70)

/-- Go `url.unhex`. -/
def unhex (c : Byte) : Nat :=
  if 48 ≤ c.val ∧ c.val ≤ 57 then c.val - 48
  else if 97 ≤ c.val ∧ c.val ≤ 102 then c.val - 97 + 10
  else if 65 ≤ c.val ∧ c.val ≤ 70 then c.val - 65 + 10
  else 0

/-- Go `url.unescape`: `%XX` becomes the byte `XX`, and in a query component
(`plusAsSpace`) `+` becomes a space; `none` is the `EscapeError` for a `%` that
two hexadecimal digits do not follow. -/
def unescape (plusAsSpace : Bool) : GoString → Option GoString
  | [] => some []
  | c :: rest =>
    if c = 37 then
      match rest with
      | a :: b :: rest2 =>
        if ishex a ∧ ishex b then
          (unescape plusAsSpace rest2).map
            (fun t => Fin.ofNat ((unhex a <<< 4) % 256 ||| unhex b) :: t)
        else none
      | _ => none
    else if c = 43 then
      (unescape plusAsSpace rest).map (fun t => (if plusAsSpace then 32 else 43) :: t)
    else (unescape plusAsSpace rest).map (fun t => c :: t)

/-- Go `url.QueryUnescape`. -/
def QueryUnescape (s : GoString) : Option GoString := unescape true s

/-- Go `url.PathUnescape`: plain percent-decoding, `+` stays `+`. -/
def PathUnescape (s : GoString) : Option GoString := unescape false s

/-! ## Configuration, HTTP values and the outside world -/

/-- The read-only values of package `util` (`util.GetSiteDomain()` and the like). -/
structure Config where
  SiteDomain : GoString
  SiteSlug : GoString
  GoogleSiteVerification : GoString
  PageTitle : GoString
  PageDescription : GoString
  SitemapID : GoString

/-- An `http.Header`: the values held under each (canonical) key, none for an absent key. -/
abbrev Header := GoString → List GoString

/-- The empty header map. -/
def Header.empty : Header := fun _ => []

/-- The method `Header.Get`: the first value under the key, or `""`. -/
def Header.Get (h : Header) (key : GoString) : GoString := (h key).headD []

/-- The method `Header.Set`. -/
def Header.Set (h : Header) (key value : GoString) : Header :=
  fun k => if k = key then [value] else h k

/-- The method `Header.Add`. -/
def Header.Add (h : Header) (key value : GoString) : Header :=
  fun k => if k = key then h k ++ [value] else h k

/-- The method `Header.Del`. -/
def Header.Del (h : Header) (key : GoString) : Header :=
  fun k => if k = key then [] else h k

/-- The loop `for name, values := range src { for _, value := range values {
dst.Add(name, value) } }`: under every key the values of `src` follow those of `dst`. -/
def Header.AddAll (dst src : Header) : Header := fun k => dst k ++ src k

/-- A body stream: the bytes it yields, and the error that ends it when it does not end
in `io.EOF`. -/
structure Body where
  data : GoString
  err : Option GoString := none

/-- Go `io.ReadAll`. -/
def ReadAll (b : Body) : Except GoString GoString :=
  match b.err with
  | none => .ok b.data
  | some e => .error e

/-- The fields of the inbound `*http.Request` that the program reads. -/
structure Request where
  Method : GoString
  Path : GoString
  RawQuery : GoString
  TLS : Bool
  Host : GoString
  Header : Header
  Body : Body

/-- An outbound request, as `http.NewRequest` and the header calls build it. -/
structure ClientRequest where
  Method : GoString
  URL : GoString
  Header : Header
  Body : Body

/-- The fields of the backend's `*http.Response` that the program reads. -/
structure Response where
  StatusCode : Int
  Header : Header
  Body : Body

/-- The state of an `http.ResponseWriter` that records what it is given (as
`httptest.ResponseRecorder` does): the live header map, whether the header was written, and
if so the status code and the headers sent with it, and the body bytes written so far. -/
structure ResponseWriter where
  header : Header
  wroteHeader : Bool
  status : Int
  sentHeader : Header
  body : GoString

/-- A writer nothing was written to yet. -/
def ResponseWriter.fresh : ResponseWriter :=
  { header := Header.empty, wroteHeader := false, status := 0, sentHeader := Header.empty,
    body := [] }

/-- The method `WriteHeader`: the first call sends the status code with the headers as they
are then; later calls are ignored. -/
def ResponseWriter.WriteHeader (w : ResponseWriter) (code : Int) : ResponseWriter :=
  if w.wroteHeader then w
  else { w with wroteHeader := true, status := code, sentHeader := w.header }

/-- The method `Write`: writes the header with status 200 if it was not written, then the
bytes. -/
def ResponseWriter.Write (w : ResponseWriter) (b : GoString) : ResponseWriter :=
  let w1 := w.WriteHeader 200
  { w1 with body := w1.body ++ b }

/-- Go `http.Error`: drops `Content-Length`, sets the plain-text content type, writes the
status code and the message followed by a newline. -/
def httpError (w : ResponseWriter) (error : GoString) (code : Int) : ResponseWriter :=
  let h := ((w.header.Del (str "Content-Length")).Set (str "Content-Type")
    (str "text/plain; charset=utf-8")).Set (str "X-Content-Type-Options") (str "nosniff")
  (({ w with header := h }).WriteHeader code).Write (error ++ str "\n")

/-- A Go `float64`, held as its IEEE-754 bit pattern. -/
structure Float64 where
  bits : Nat
deriving DecidableEq

/-- The constant `1.0`. -/
def Float64.one : Float64 := ⟨0x3FF0000000000000⟩

/-- The constant `0.8`. -/
def Float64.pointEight : Float64 := ⟨0x3FE999999999999A⟩

/-- A value of type `interface{}` as the program meets it: what `json.Unmarshal` stores
(`nil`, `bool`, `float64`, `string`, `[]interface{}`, `map[string]interface{}`) and the
`int` constants of the request payloads. A map is the list of its entries. -/
inductive Any where
  | nil
  | bool (b : Bool)
  | float64 (f : Float64)
  | int (n : Int)
  | string (s : GoString)
  | slice (xs : List Any)
  | map (m : List (GoString × Any))

/-- A `map[string]interface{}`: its entries; the first entry of a key is the one that
counts. -/
abbrev GoMap := List (GoString × Any)

/-- The index expression `m[key]`: the value under the key, `nil` when the key is absent. -/
def GoMap.index (m : GoMap) (key : GoString) : Any :=
  match m.lookup key with
  | some v => v
  | none => Any.nil

/-- The builtin `delete(m, key)`. -/
def GoMap.delete (m : GoMap) (key : GoString) : GoMap := m.filter (fun e => !(e.1 == key))

/-- The type assertion `v.(map[string]interface{})` in its two-value form. -/
def Any.asMap : Any → Option GoMap
  | .map m => some m
  | _ => none

/-- The type assertion `v.([]interface{})` in its two-value form. -/
def Any.asSlice : Any → Option (List Any)
  | .slice xs => some xs
  | _ => none

/-- The type assertion `v.(string)` in its two-value form. -/
def Any.asString : Any → Option GoString
  | .string s => some s
  | _ => none

/-- The struct `URL` of a sitemap entry. -/
structure URL where
  Loc : GoString
  LastMod : GoString
  ChangeFreq : GoString
  Priority : Float64
deriving DecidableEq

/-- The struct `URLSet`. -/
structure URLSet where
  Xmlns : GoString
  URLs : List URL
deriving DecidableEq

/-- What the program gets from outside its own code: the network, the clock and the
standard-library codecs. An error is held as its message. -/
structure Env where
  /-- The error of `http.NewRequest(method, url, body)`, if it returns one. -/
  NewRequest : GoString → GoString → Option GoString
  /-- The call `client.Do(req)`; the flag tells whether the client follows redirects. -/
  Do : Bool → ClientRequest → Except GoString Response
  /-- The call `gzip.NewReader(r)`: `none` when it returns an error (it reads the gzip
  header at once), else the reader, as the stream of the decoded bytes. -/
  gzipNewReader : Body → Option Body
  /-- What the stream `r` still yields after `gzip.NewReader(r)` returned an error: the
  reader pulls bytes from `r` into its buffer to look at the header. -/
  gzipRest : Body → Body
  /-- The bytes in the buffer after `gz.Write(content)` and `gz.Close()`, or the first
  error of the two calls. -/
  gzipWrite : GoString → Except GoString GoString
  /-- The call `json.Unmarshal(body, &data)` with `data` a `map[string]interface{}`. -/
  jsonUnmarshal : GoString → Except GoString GoMap
  /-- The call `json.Marshal(v)`. -/
  jsonMarshal : Any → Except GoString GoString
  /-- The document `xml.NewEncoder(w)` writes for `Encode(urlset)`, indented by two
  spaces. -/
  xmlEncode : URLSet → Except GoString GoString
  /-- The value of `time.Now().Format("2006-01-02")` while the request is handled. -/
  today : GoString

/-! ## proxy/handler.go -/

/-- Go slice expression `s[i:]`; `none` is the run-time panic for an index out of range. -/
def sliceFrom (s : GoString) (i : Int) : Option GoString :=
  if 0 ≤ i ∧ i ≤ (s.length : Int) then some (s.drop i.toNat) else none

/-- Go slice expression `s[:j]`; `none` is the run-time panic for an index out of range. -/
def sliceTo (s : GoString) (j : Int) : Option GoString :=
  if 0 ≤ j ∧ j ≤ (s.length : Int) then some (s.take j.toNat) else none

/-- The literal `"notion.site/image/"`. -/
def imageMarker : GoString := str "notion.site/image/"

/-- The function `handleImageURL`: the URL up to and including the first
`"notion.site/image/"`, then the query-escaped rest, if the rest holds `"https://"`. -/
def handleImageURL (requestURL : GoString) : Option GoString := do
  let tail ← sliceFrom requestURL (Index requestURL imageMarker + imageMarker.length)
  let idx := Index tail (str "https://")
  if idx ≠ -1 then
    let baseURL ← sliceTo requestURL (Index requestURL imageMarker + imageMarker.length)
    let imageURL ← sliceFrom requestURL (Index requestURL imageMarker + imageMarker.length)
    pure (baseURL ++ QueryEscape imageURL)
  else
    pure requestURL

/-- The function `buildRequestURL`; `none` is a panic of `handleImageURL`. -/
def buildRequestURL (cfg : Config) (r : Request) : Option GoString := do
  let requestURL := cfg.SiteDomain ++ r.Path
  let requestURL ←
    if Contains requestURL (str "notion.site/image/https://") then handleImageURL requestURL
    else pure requestURL
  let requestURL := if r.RawQuery ≠ [] then requestURL ++ str "?" ++ r.RawQuery else requestURL
  pure requestURL

/-- The function `createProxyRequest`: a request with the inbound method, body and headers. -/
def createProxyRequest (env : Env) (r : Request) (requestURL : GoString) :
    Except GoString ClientRequest :=
  match env.NewRequest r.Method requestURL with
  | some err => .error err
  | none =>
    .ok { Method := r.Method, URL := requestURL,
          Header := Header.AddAll Header.empty r.Header, Body := r.Body }

/-- The function `sendProxyRequest`: the client does not follow redirects. -/
def sendProxyRequest (env : Env) (req : ClientRequest) : Except GoString Response :=
  env.Do false req

/-- The function `getReader`. -/
def getReader (env : Env) (resp : Response) : Body :=
  if resp.Header.Get (str "Content-Encoding") = str "gzip" then
    match env.gzipNewReader resp.Body with
    | none => env.gzipRest resp.Body
    | some reader => reader
  else resp.Body

/-- The function `sendGzippedResponse`. -/
def sendGzippedResponse (env : Env) (w : ResponseWriter) (resp : Response)
    (content : GoString) : ResponseWriter :=
  match env.gzipWrite content with
  | .error err => httpError w err 500
  | .ok buf =>
    (({ w with header := w.header.Set (str "Content-Encoding") (str "gzip") }).WriteHeader
      resp.StatusCode).Write buf

/-- The function `handlePublicPageData`. -/
def handlePublicPageData (env : Env) (w : ResponseWriter) (resp : Response) :
    ResponseWriter :=
  match ReadAll (getReader env resp) with
  | .error err => httpError w err 500
  | .ok body =>
    match env.jsonUnmarshal body with
    | .error err => httpError w err 500
    | .ok data =>
      let data := data.delete (str "requireInterstitial")
      match env.jsonMarshal (Any.map data) with
      | .error err => httpError w err 500
      | .ok modifiedJSON =>
        let w := { w with header := w.header.Set (str "Content-Type") (str "application/json") }
        if resp.Header.Get (str "Content-Encoding") = str "gzip" then
          sendGzippedResponse env w resp modifiedJSON
        else
          (w.WriteHeader resp.StatusCode).Write modifiedJSON

/-- The format of injectScript up to the first verb, line by line. -/
def scriptHead : GoString :=
  List.flatMap [
    "\n",
    "\t<meta name=\"google-site-verification\" content=\""] str

/-- The format of injectScript between the first and the second verb, line by line. -/
def scriptStyle : GoString :=
  List.flatMap [
    "\" />\n",
    "\t<style>\n",
    "\t\t/* Hide the \"More actions\" button and the button after it */\n",
    "\t\t.notion-topbar [role=\"button\"][tabindex=\"0\"][aria-label],\n",
    "\t\t.notion-topbar [role=\"button\"][tabindex=\"0\"][style*=\"border: 1px solid\"] \x7b\n",
    "\t\t\tdisplay: none !important;\n",
    "\t\t\x7d\n",
    "\t\t/* Hide the mobile version of the buttons if they exist */\n",
    "\t\t.notion-topbar-mobile [role=\"button\"][tabindex=\"0\"][aria-label],\n",
    "\t\t.notion-topbar-mobile [role=\"button\"][tabindex=\"0\"][style*=\"border: 1px solid\"] \x7b\n",
    "\t\t\tdisplay: none !important;\n",
    "\t\t\x7d\n",
    "\t\t/* Hide \"Free Notion\" button based on background color */\n",
    "\t\t.notion-topbar [role=\"button\"][style*=\"background: var(--c-bacAccPri)\"],\n",
    "\t\t.notion-topbar-mobile [role=\"button\"][style*=\"background: var(--c-bacAccPri)\"] \x7b\n",
    "\t\t\tdisplay: none !important;\n",
    "\t\t\x7d\n",
    "\t</style>\n",
    "\t<script>\n",
    "\t\t// Set the page title and description\n",
    "\t\tconst PAGE_TITLE = \""] str

/-- The format of injectScript between the second and the third verb, line by line. -/
def scriptTitleEnd : GoString :=
  List.flatMap [
    "\";\n",
    "\t\tconst PAGE_DESCRIPTION = \""] str

/-- The format of injectScript after the third verb, line by line. -/
def scriptTail : GoString :=
  List.flatMap [
    "\";\n",
    "\n",
    "\t\t// Create a MutationObserver to listen to DOM changes\n",
    "\t\tconst observer = new MutationObserver(() => \x7b\n",
    "\t\t\t// Update page info\n",
    "\t\t\tconst titleElement = document.querySelector(\"title\");\n",
    "\t\t\tconst metaDescriptions = [\n",
    "\t\t\t\tdocument.querySelector('meta[name=\"description\"]'),\n",
    "\t\t\t\tdocument.querySelector('meta[property=\"og:description\"]')\n",
    "\t\t\t];\n",
    "\n",
    "\t\t\t// Update or create title\n",
    "\t\t\tif (titleElement && titleElement.textContent !== PAGE_TITLE) \x7b\n",
    "\t\t\t\ttitleElement.textContent = PAGE_TITLE;\n",
    "\t\t\t\x7d\n",
    "\n",
    "\t\t\t// Update existing meta descriptions\n",
    "\t\t\tmetaDescriptions.forEach(meta => \x7b\n",
    "\t\t\t\tif (meta && meta.getAttribute(\"content\") !== PAGE_DESCRIPTION) \x7b\n",
    "\t\t\t\t\tmeta.setAttribute(\"content\", PAGE_DESCRIPTION);\n",
    "\t\t\t\t\x7d\n",
    "\t\t\t\x7d);\n",
    "\n",
    "\t\t\t// Create meta descriptions if they don't exist\n",
    "\t\t\tif (!document.querySelector('meta[name=\"description\"]') && document.head) \x7b\n",
    "\t\t\t\tconst meta = document.createElement(\"meta\");\n",
    "\t\t\t\tmeta.setAttribute(\"name\", \"description\");\n",
    "\t\t\t\tmeta.setAttribute(\"content\", PAGE_DESCRIPTION);\n",
    "\t\t\t\tdocument.head.appendChild(meta);\n",
    "\t\t\t\x7d\n",
    "\t\t\tif (!document.querySelector('meta[property=\"og:description\"]') && document.head) \x7b\n",
    "\t\t\t\tconst meta = document.createElement(\"meta\");\n",
    "\t\t\t\tmeta.setAttribute(\"property\", \"og:description\");\n",
    "\t\t\t\tmeta.setAttribute(\"content\", PAGE_DESCRIPTION);\n",
    "\t\t\t\tdocument.head.appendChild(meta);\n",
    "\t\t\t\x7d\n",
    "\t\t\x7d);\n",
    "\n",
    "\t\t// Start observing head changes\n",
    "\t\tobserver.observe(document.head, \x7b\n",
    "\t\t\tchildList: true,\n",
    "\t\t\tsubtree: true,\n",
    "\t\t\tcharacterData: true\n",
    "\t\t\x7d);\n",
    "\n",
    "\t\t// Also observe body for any dynamically added title elements\n",
    "\t\tobserver.observe(document.body, \x7b\n",
    "\t\t\tchildList: true,\n",
    "\t\t\tsubtree: true,\n",
    "\t\t\tcharacterData: true\n",
    "\t\t\x7d);\n",
    "\t</script>"] str

/-- The string `script` of `injectScript`: the format with the verification token, the page
title and the page description in the place of its three `%s`. -/
def script (cfg : Config) : GoString :=
  scriptHead ++ cfg.GoogleSiteVerification ++ scriptStyle ++ cfg.PageTitle ++ scriptTitleEnd
    ++ cfg.PageDescription ++ scriptTail

/-- The function `injectScript`. -/
def injectScript (cfg : Config) (htmlString : GoString) : GoString :=
  Replace htmlString (str "</head>") (script cfg ++ str "</head>") 1

/-- The function `handleHTMLResponse`. -/
def handleHTMLResponse (env : Env) (cfg : Config) (w : ResponseWriter) (resp : Response) :
    ResponseWriter :=
  match ReadAll (getReader env resp) with
  | .error err => httpError w err 500
  | .ok body =>
    let htmlString := injectScript cfg body
    if resp.Header.Get (str "Content-Encoding") = str "gzip" then
      sendGzippedResponse env w resp htmlString
    else
      (w.WriteHeader resp.StatusCode).Write htmlString

/-- The function `handleDefaultResponse`: `io.Copy` writes the bytes the body yields. -/
def handleDefaultResponse (w : ResponseWriter) (resp : Response) : ResponseWriter :=
  (w.WriteHeader resp.StatusCode).Write resp.Body.data

/-- The function `proxyRequest`; `none` is a panic. -/
def proxyRequest (env : Env) (cfg : Config) (w : ResponseWriter) (r : Request)
    (path : GoString) : Option ResponseWriter := do
  let requestURL ← buildRequestURL cfg r
  match createProxyRequest env r requestURL with
  | .error err => pure (httpError w err 500)
  | .ok req =>
    match sendProxyRequest env req with
    | .error err => pure (httpError w err 500)
    | .ok resp =>
      let w := { w with header := Header.AddAll w.header resp.Header }
      if path = str "api/v3/getPublicPageData" then
        pure (handlePublicPageData env w resp)
      else if Contains (resp.Header.Get (str "Content-Type")) (str "text/html") then
        pure (handleHTMLResponse env cfg w resp)
      else
        pure (handleDefaultResponse w resp)

/-! ## proxy/sitemap.go -/

/-- How a call that returns `(value, error)` can end otherwise than with a value: with an
error, or in a run-time panic. -/
inductive Failure where
  | error (msg : GoString)
  | panic
deriving DecidableEq

/-- The statements `if err != nil { return nil, fmt.Errorf(what + "%v", err) }`. -/
def orFail {α : Type} (what : GoString) : Except GoString α → Except Failure α
  | .ok a => .ok a
  | .error err => .error (Failure.error (what ++ err))

/-- The `User-Agent` the two sitemap requests carry. -/
def userAgent : GoString :=
  str ("Mozilla/5.0 (Windows NT 10.0; Win64; x64) AppleWebKit/537.36 (KHTML, like Gecko) "
    ++ "Chrome/91.0.4472.124 Safari/537.36")

/-- The payload of the first request of `loadDatabasePages`. -/
def resolvePayload (cfg : Config) : Any :=
  Any.map [
    (str "page", Any.map [(str "id", Any.string cfg.SitemapID)]),
    (str "limit", Any.int 30),
    (str "cursor", Any.map [(str "stack", Any.slice [])]),
    (str "verticalColumns", Any.bool false)]

/-- The payload of the second request of `loadDatabasePages`. -/
def queryPayload (collectionID viewID : GoString) : Any :=
  Any.map [
    (str "collection", Any.map [(str "id", Any.string collectionID)]),
    (str "collectionView", Any.map [(str "id", Any.string viewID)]),
    (str "loader", Any.map [
      (str "type", Any.string (str "reducer")),
      (str "reducers", Any.map [
        (str "collection_group_results", Any.map [
          (str "type", Any.string (str "results")),
          (str "limit", Any.int 50)])]),
      (str "sort", Any.slice []),
      (str "searchQuery", Any.string []),
      (str "userTimeZone", Any.string (str "Asia/Shanghai"))])]

/-- Part of `loadDatabasePages`: `viewID` and `collectionID` as the nested `if`s over the
parsed first response leave them (`""` where nothing was assigned). Every type assertion has
the two-value form but `viewIds[0].(string)`, which panics on a value that is no string. -/
def resolveIDs (cfg : Config) (result : GoMap) : Except Failure (GoString × GoString) :=
  match (result.index (str "recordMap")).asMap with
  | none => pure ([], [])
  | some recordMap =>
    match (recordMap.index (str "block")).asMap with
    | none => pure ([], [])
    | some block =>
      match (block.index cfg.SitemapID).asMap with
      | none => pure ([], [])
      | some blockValue =>
        match (blockValue.index (str "value")).asMap with
        | none => pure ([], [])
        | some value => do
          let viewID ←
            match (value.index (str "view_ids")).asSlice with
            | some (first :: _) =>
              match first with
              | Any.string s => pure s
              | _ => throw Failure.panic
            | _ => pure []
          let collectionID :=
            match (value.index (str "collection_id")).asString with
            | some colID => colID
            | none => []
          pure (viewID, collectionID)

/-- Part of `loadDatabasePages`: the value of `blockIds` that the nested `if`s over the
parsed second response reach, when they reach one. -/
def blockIdsOf (queryResult : GoMap) : Option (List Any) :=
  match (queryResult.index (str "result")).asMap with
  | none => none
  | some resultData =>
    match (resultData.index (str "reducerResults")).asMap with
    | none => none
    | some reducerResults =>
      match (reducerResults.index (str "collection_group_results")).asMap with
      | none => none
      | some collectionGroupResults =>
        (collectionGroupResults.index (str "blockIds")).asSlice

/-- Part of `loadDatabasePages`: the slice `urls` after the loop over `blockIds` of the
parsed second response (`nil` when the `if`s do not reach the loop). -/
def pageURLs (env : Env) (baseURL : GoString) (queryResult : GoMap) : List URL :=
  match blockIdsOf queryResult with
  | none => []
  | some blockIds =>
    blockIds.foldl (fun urls id =>
      match id.asString with
      | some pageId =>
        urls ++ [{ Loc := baseURL ++ str "/" ++ ReplaceAll pageId (str "-") [],
                   LastMod := env.today,
                   ChangeFreq := str "daily",
                   Priority := Float64.pointEight }]
      | none => urls) []

/-- Part of `loadDatabasePages`, "1. First request to get collection_id and view_id":
the request to `loadCachedPageChunkV2`, down to `viewID` and `collectionID`. -/
def resolveCollection (env : Env) (cfg : Config) : Except Failure (GoString × GoString) := do
  let jsonData ← orFail (str "failed to marshal JSON: ") (env.jsonMarshal (resolvePayload cfg))
  let url := cfg.SiteDomain ++ str "/api/v3/loadCachedPageChunkV2"
  match env.NewRequest (str "POST") url with
  | some err => throw (Failure.error (str "failed to create request: " ++ err))
  | none =>
  let header := (((Header.empty.Set (str "Content-Type") (str "application/json")).Set
    (str "Accept") (str "*/*")).Set (str "Accept-Language") (str "en-US,en;q=0.9")).Set
    (str "User-Agent") userAgent
  let req : ClientRequest :=
    { Method := str "POST", URL := url, Header := header, Body := { data := jsonData } }
  let resp ← orFail (str "failed to send request: ") (env.Do true req)
  let body ← orFail (str "failed to read response: ") (ReadAll resp.Body)
  let result ← orFail (str "failed to parse JSON: ") (env.jsonUnmarshal body)
  let (viewID, collectionID) ← resolveIDs cfg result
  if viewID = [] ∨ collectionID = [] then
    throw (Failure.error (str "failed to find viewID or collectionID"))
  else
    pure (viewID, collectionID)

/-- Part of `loadDatabasePages`, "2. Second request to queryCollection": the request, down
to the parsed response `queryResult`. -/
def queryCollection (env : Env) (cfg : Config) (collectionID viewID : GoString) :
    Except Failure GoMap := do
  let queryJsonData ← orFail (str "failed to marshal query JSON: ")
    (env.jsonMarshal (queryPayload collectionID viewID))
  let queryURL := cfg.SiteDomain ++ str "/api/v3/queryCollection"
  match env.NewRequest (str "POST") queryURL with
  | some err => throw (Failure.error (str "failed to create query request: " ++ err))
  | none =>
  let queryHeader := ((Header.empty.Set (str "Content-Type") (str "application/json")).Set
    (str "Accept") (str "*/*")).Set (str "User-Agent") userAgent
  let queryReq : ClientRequest :=
    { Method := str "POST", URL := queryURL, Header := queryHeader,
      Body := { data := queryJsonData } }
  let queryResp ← orFail (str "failed to send query request: ") (env.Do true queryReq)
  let queryBody ← orFail (str "failed to read query response: ") (ReadAll queryResp.Body)
  orFail (str "failed to parse query JSON: ") (env.jsonUnmarshal queryBody)

/-- The function `loadDatabasePages`. -/
def loadDatabasePages (env : Env) (cfg : Config) (r : Request) : Except Failure (List URL) := do
  let scheme := if r.TLS then str "https" else str "http"
  let baseURL := scheme ++ str "://" ++ r.Host
  let (viewID, collectionID) ← resolveCollection env cfg
  let queryResult ← queryCollection env cfg collectionID viewID
  let urls := pageURLs env baseURL queryResult
  if urls.length = 0 then
    throw (Failure.error (str "no pages found in the collection view"))
  else
    pure urls

/-- Part of `handleSitemap`: the value of `urlset` handed to the XML encoder; `none` is a
panic of `loadDatabasePages`. -/
def sitemapURLSet (env : Env) (cfg : Config) (r : Request) : Option URLSet :=
  let scheme := if r.TLS then str "https" else str "http"
  let baseURL := scheme ++ str "://" ++ r.Host
  let urlset : URLSet :=
    { Xmlns := str "http://www.sitemaps.org/schemas/sitemap/0.9",
      URLs := [{ Loc := baseURL ++ str "/" ++ cfg.SiteSlug,
                 LastMod := env.today,
                 ChangeFreq := str "daily",
                 Priority := Float64.one }] }
  match loadDatabasePages env cfg r with
  | .ok dbUrls => some { urlset with URLs := urlset.URLs ++ dbUrls }
  | .error (Failure.error _) => some urlset
  | .error Failure.panic => none

/-- The constant `xml.Header`. -/
def xmlHeader : GoString := str "<?xml version=\"1.0\" encoding=\"UTF-8\"?>\n"

/-- The function `handleSitemap`; `none` is a panic. -/
def handleSitemap (env : Env) (cfg : Config) (w : ResponseWriter) (r : Request) :
    Option ResponseWriter := do
  let urlset ← sitemapURLSet env cfg r
  let w := { w with header := w.header.Set (str "Content-Type") (str "application/xml") }
  let w := w.Write xmlHeader
  match env.xmlEncode urlset with
  | .ok doc => pure (w.Write doc)
  | .error _ => pure (httpError w (str "Failed to generate sitemap") 500)

/-! ## Properties of strings, and the values of the examples -/

/-- No proper non-empty suffix of `w` is a prefix of `w`: two instances of `w` cannot overlap. -/
def Borderless (w : GoString) : Prop :=
  ∀ k, k < w.length → 0 < k → (w.drop k).isPrefixOf w = false

instance (w : GoString) : Decidable (Borderless w) := by
  unfold Borderless; infer_instance

/-- The configuration of the examples. -/
def exampleConfig : Config :=
  { SiteDomain := str "https://notion.site", SiteSlug := str "blog",
    GoogleSiteVerification := str "token", PageTitle := str "Title",
    PageDescription := str "About", SitemapID := str "root" }

/-- A header map with a single value under each of the listed keys. -/
def headerOf (entries : List (GoString × GoString)) : Header :=
  fun k => match entries.lookup k with
    | some v => [v]
    | none => []

/-- The header map that holds the listed entries: under each key the values of its first
entry. -/
def headerOfEntries (entries : List (GoString × List GoString)) : Header :=
  fun k => (entries.lookup k).getD []

/-- The loop `for name, values := range src { for _, value := range values {
dst.Add(name, value) } }` over the entries of `src`, taken in the order of the list. -/
def addEntries (dst : Header) (entries : List (GoString × List GoString)) : Header :=
  entries.foldl (fun h e => e.2.foldl (fun h2 value => h2.Add e.1 value) h) dst

/-- An inbound `GET` request over plain HTTP for the host `example.com`. -/
def getRequest (path rawQuery : GoString) : Request :=
  { Method := str "GET", Path := path, RawQuery := rawQuery, TLS := false,
    Host := str "example.com", Header := Header.empty, Body := { data := [] } }

/-- The 23 bytes `gzip.Writer` emits when it is closed without input: the 10-byte header,
an empty stored block, and the zero checksum and size. -/
def emptyGzipMember : GoString :=
  [0x1f, 0x8b, 8, 0, 0, 0, 0, 0, 0, 0xff, 1, 0, 0, 0xff, 0xff, 0, 0, 0, 0, 0, 0, 0, 0]

/-- An outside world with a backend that gives the one answer `resp` to every request.
The codecs are those of the examples, whose bodies are short and are not gzip streams:
`gzip.NewReader` rejects the stream, having read it to its end into its buffer; the gzip
writer is only ever given the empty content; the JSON and XML codecs answer with an error,
and an example that needs one of them gives the field anew. -/
def exampleEnv (resp : Response) : Env :=
  { NewRequest := fun _ _ => none
    Do := fun _ _ => .ok resp
    gzipNewReader := fun _ => none
    gzipRest := fun b => { data := [], err := b.err }
    gzipWrite := fun content =>
      if content = [] then .ok emptyGzipMember else .error (str "gzip: outside the examples")
    jsonUnmarshal := fun _ => .error (str "unexpected end of JSON input")
    jsonMarshal := fun _ => .error (str "json: unsupported value")
    xmlEncode := fun _ => .error (str "xml: unsupported type")
    today := str "2024-05-01" }

/-- A backend answer `200` with an HTML page of 13 bytes and its `Content-Length`. -/
def htmlResponse : Response :=
  { StatusCode := 200
    Header := headerOf [(str "Content-Type", str "text/html; charset=utf-8"),
      (str "Content-Length", str "13")]
    Body := { data := str "<head></head>" } }

/-- A backend answer `200` that declares `Content-Encoding: gzip` over a body of plain HTML,
which is no gzip stream. -/
def mislabelledResponse : Response :=
  { StatusCode := 200
    Header := headerOf [(str "Content-Type", str "text/html; charset=utf-8"),
      (str "Content-Encoding", str "gzip")]
    Body := { data := str "<html><head></head></html>" } }

/-- The JSON text of the examples' public page data. -/
def pageDataText : GoString :=
  str "\x7b\"spaceName\":\"potion\",\"requireInterstitial\":true,\"betaEnabled\":false\x7d"

/-- The object `json.Unmarshal` stores for `pageDataText`. -/
def pageDataObject : GoMap :=
  [(str "spaceName", Any.string (str "potion")), (str "requireInterstitial", Any.bool true),
   (str "betaEnabled", Any.bool false)]

/-- A backend answer `200` with `pageDataText`, not compressed. -/
def pageDataResponse : Response :=
  { StatusCode := 200
    Header := headerOf [(str "Content-Type", str "application/json; charset=utf-8")]
    Body := { data := pageDataText } }

/-- The outside world of the public page data example: `json.Unmarshal` reads
`pageDataText`, and `json.Marshal` writes the object without the interstitial flag, keys
in sorted order. -/
def pageDataEnv : Env :=
  { exampleEnv pageDataResponse with
    jsonUnmarshal := fun b =>
      if b = pageDataText then .ok pageDataObject
      else .error (str "invalid character")
    jsonMarshal := fun v =>
      match v with
      | Any.map [(k1, Any.string s), (k2, Any.bool false)] =>
        if k1 = str "spaceName" ∧ k2 = str "betaEnabled" then
          .ok (str "\x7b\"betaEnabled\":false,\"spaceName\":\"" ++ s ++ str "\"\x7d")
        else .error (str "json: unsupported value")
      | _ => .error (str "json: unsupported value") }

/-- The literal `"notion.site/image/https://"` of `buildRequestURL`. -/
def imageURLMarker : GoString := str "notion.site/image/https://"

/-- The rewrite of an image URL as a reading of the specification has it: the URL is cut where
the `"https://"` of its first `"notion.site/image/https://"` starts, and only what follows
the cut is query-escaped. -/
def escapeFromInnerURL (u : GoString) : Option GoString :=
  (firstIndex imageURLMarker u).map fun i =>
    u.take (i + imageMarker.length) ++ QueryEscape (u.drop (i + imageMarker.length))

/-- The same rewrite with the cut at the first `"https://"` found after the first
`"notion.site/image/"`. -/
def escapeFromFirstHTTPS (u : GoString) : Option GoString :=
  (firstIndex imageMarker u).bind fun i =>
    (firstIndex (str "https://") (u.drop (i + imageMarker.length))).map fun j =>
      u.take (i + imageMarker.length + j) ++ QueryEscape (u.drop (i + imageMarker.length + j))

/-- A request for a path in which `notion.site/image/` comes twice, the first time without
a URL right after it. -/
def nestedImageRequest : Request :=
  getRequest (str "/image/x/notion.site/image/https://b.png") []

/-- The text of a built request URL after `<backend-domain>/image/`: the embedded URL
together with what follows it. -/
def embeddedTail (cfg : Config) (requestURL : GoString) : GoString :=
  requestURL.drop (cfg.SiteDomain.length + (str "/image/").length)

/-- The raw query, with its `?`, as `buildRequestURL` appends it. -/
def querySuffix (r : Request) : GoString :=
  if r.RawQuery ≠ [] then str "?" ++ r.RawQuery else []

/-- An image request whose raw query holds a percent escape. -/
def escapedQueryRequest : Request :=
  getRequest (str "/image/https://example.com/a.png") (str "x=%41")

/-- The JSON text of a first answer that exposes `view_ids: ["v1"]` and
`collection_id: "c1"` under the root page `root`. -/
def resolveText : GoString :=
  str ("\x7b\"recordMap\":\x7b\"block\":\x7b\"root\":\x7b\"value\":\x7b\"view_ids\":[\"v1\"]," ++
    "\"collection_id\":\"c1\"\x7d\x7d\x7d\x7d\x7d")

/-- The object `json.Unmarshal` stores for `resolveText`. -/
def resolveObject : GoMap :=
  [(str "recordMap", Any.map [(str "block", Any.map [(str "root", Any.map [(str "value",
    Any.map [(str "view_ids", Any.slice [Any.string (str "v1")]),
      (str "collection_id", Any.string (str "c1"))])])])])]

/-- The JSON text of a first answer whose `view_ids` holds a number, not a string. -/
def numericViewText : GoString :=
  str ("\x7b\"recordMap\":\x7b\"block\":\x7b\"root\":\x7b\"value\":\x7b\"view_ids\":[1]," ++
    "\"collection_id\":\"c1\"\x7d\x7d\x7d\x7d\x7d")

/-- The object `json.Unmarshal` stores for `numericViewText`: the number is a `float64`. -/
def numericViewObject : GoMap :=
  [(str "recordMap", Any.map [(str "block", Any.map [(str "root", Any.map [(str "value",
    Any.map [(str "view_ids", Any.slice [Any.float64 Float64.one]),
      (str "collection_id", Any.string (str "c1"))])])])])]

/-- The JSON text of a first answer without `view_ids`. -/
def noViewText : GoString :=
  str ("\x7b\"recordMap\":\x7b\"block\":\x7b\"root\":\x7b\"value\":\x7b" ++
    "\"collection_id\":\"c1\"\x7d\x7d\x7d\x7d\x7d")

/-- The object `json.Unmarshal` stores for `noViewText`. -/
def noViewObject : GoMap :=
  [(str "recordMap", Any.map [(str "block", Any.map [(str "root", Any.map [(str "value",
    Any.map [(str "collection_id", Any.string (str "c1"))])])])])]

/-- The JSON text of a second answer whose `blockIds` are the given strings. -/
def queryTextOf (ids : List GoString) : GoString :=
  str ("\x7b\"result\":\x7b\"reducerResults\":\x7b\"collection_group_results\":\x7b" ++
    "\"blockIds\":[") ++
  (str ",").intercalate (ids.map (fun id => str "\"" ++ id ++ str "\"")) ++
  str "]\x7d\x7d\x7d\x7d"

/-- The object `json.Unmarshal` stores for `queryTextOf ids`. -/
def queryObjectOf (ids : List GoString) : GoMap :=
  [(str "result", Any.map [(str "reducerResults", Any.map [(str "collection_group_results",
    Any.map [(str "blockIds", Any.slice (ids.map Any.string))])])])]

/-- What `json.Marshal` writes for `resolvePayload exampleConfig`. -/
def resolvePayloadText : GoString :=
  str ("\x7b\"cursor\":\x7b\"stack\":[]\x7d,\"limit\":30,\"page\":\x7b\"id\":\"root\"\x7d," ++
    "\"verticalColumns\":false\x7d")

/-- What `json.Marshal` writes for `queryPayload "c1" "v1"`. -/
def queryPayloadText : GoString :=
  str ("\x7b\"collection\":\x7b\"id\":\"c1\"\x7d,\"collectionView\":\x7b\"id\":\"v1\"\x7d," ++
    "\"loader\":\x7b\"reducers\":\x7b\"collection_group_results\":\x7b\"limit\":50," ++
    "\"type\":\"results\"\x7d\x7d,\"searchQuery\":\"\",\"sort\":[],\"type\":\"reducer\"," ++
    "\"userTimeZone\":\"Asia/Shanghai\"\x7d\x7d")

/-- The inbound request for the sitemap, over plain HTTP for the host `example.com`. -/
def sitemapRequest : Request := getRequest (str "/sitemap.xml") []

/-- The outside world of the sitemap examples: the backend answers the query endpoint with
`queryBody` and the page-chunk endpoint with `resolveBody`, `json.Unmarshal` reads the
documents listed in `docs`, and `json.Marshal` writes the two payloads. -/
def sitemapEnv (resolveBody queryBody : GoString) (docs : List (GoString × GoMap)) : Env :=
  { exampleEnv { StatusCode := 200, Header := Header.empty, Body := { data := resolveBody } } with
    Do := fun _ req =>
      if req.URL = str "https://notion.site/api/v3/queryCollection" then
        .ok { StatusCode := 200, Header := Header.empty, Body := { data := queryBody } }
      else
        .ok { StatusCode := 200, Header := Header.empty, Body := { data := resolveBody } }
    jsonUnmarshal := fun b =>
      match docs.lookup b with
      | some m => .ok m
      | none => .error (str "invalid character")
    jsonMarshal := fun v =>
      match v with
      | Any.map ((k, _) :: _) =>
        if k = str "page" then .ok resolvePayloadText
        else if k = str "collection" then .ok queryPayloadText
        else .error (str "json: unsupported value")
      | _ => .error (str "json: unsupported value") }

/-- The page identifier of the sitemap scenario. -/
def scenarioPageID : GoString := str "11112222-3333-4444-5555-666677778888"

/-- The sitemap scenario: `view_ids: ["v1"]`, `collection_id: "c1"`, and one block id. -/
def scenarioEnv : Env :=
  sitemapEnv resolveText (queryTextOf [scenarioPageID])
    [(resolveText, resolveObject), (queryTextOf [scenarioPageID], queryObjectOf [scenarioPageID])]

/-- A first answer whose `view_ids[0]` is the number `1`. -/
def numericViewEnv : Env :=
  sitemapEnv numericViewText (queryTextOf [scenarioPageID])
    [(numericViewText, numericViewObject),
     (queryTextOf [scenarioPageID], queryObjectOf [scenarioPageID])]

/-- A first answer without `view_ids`. -/
def noViewEnv : Env :=
  sitemapEnv noViewText (queryTextOf [scenarioPageID])
    [(noViewText, noViewObject), (queryTextOf [scenarioPageID], queryObjectOf [scenarioPageID])]

/-- Fifty-one page identifiers: `p` and the two decimal digits of the index, units first. -/
def manyPageIDs : List GoString :=
  (List.range 51).map (fun n => [112, Fin.ofNat (48 + n % 10), Fin.ofNat (48 + n / 10)])

/-- A backend that answers the query with 51 block ids, one more than the limit asked for. -/
def overfullEnv : Env :=
  sitemapEnv resolveText (queryTextOf manyPageIDs)
    [(resolveText, resolveObject), (queryTextOf manyPageIDs, queryObjectOf manyPageIDs)]

/-- The homepage entry of the sitemap. -/
def homeURL (env : Env) (cfg : Config) (r : Request) : URL :=
  { Loc := (if r.TLS then str "https" else str "http") ++ str "://" ++ r.Host ++ str "/" ++
      cfg.SiteSlug,
    LastMod := env.today, ChangeFreq := str "daily", Priority := Float64.one }

/-- The entry of a discovered page: the identifier without its hyphens after
`<scheme>://<host>/`. -/
def pageURL (env : Env) (r : Request) (pageId : GoString) : URL :=
  { Loc := (if r.TLS then str "https" else str "http") ++ str "://" ++ r.Host ++ str "/" ++
      pageId.filter (fun b => decide (b ≠ 45)),
    LastMod := env.today, ChangeFreq := str "daily", Priority := Float64.pointEight }

/-- The writer after `handleSitemap` has set the content type and written `xml.Header`. -/
def sitemapPrologue (w : ResponseWriter) : ResponseWriter :=
  ({ w with header := w.header.Set (str "Content-Type") (str "application/xml") }).Write
    xmlHeader

/-! ## Theorems -/

theorem firstIndex_nil_left (s : GoString) : firstIndex [] s = some 0 := by
  cases s <;> simp [firstIndex]

theorem firstIndex_cons_pos (sub s : GoString) (c : Byte)
    (h : sub.isPrefixOf (c :: s) = true) : firstIndex sub (c :: s) = some 0 := by
  rw [firstIndex, if_pos h]

theorem firstIndex_cons_neg (sub s : GoString) (c : Byte)
    (h : sub.isPrefixOf (c :: s) = false) :
    firstIndex sub (c :: s) = (firstIndex sub s).map (· + 1) := by
  rw [firstIndex, if_neg (by simp [h])]

theorem firstIndex_eq_none_iff (sub s : GoString) :
    firstIndex sub s = none ↔ ¬ sub <:+: s := by
  induction s with
  | nil =>
    by_cases h : sub = []
    · simp [firstIndex, h]
    · simp [firstIndex, h]
  | cons c s ih =>
    cases h : sub.isPrefixOf (c :: s) with
    | true =>
      rw [firstIndex_cons_pos _ _ _ h]
      have hp : sub <+: c :: s := List.isPrefixOf_iff_prefix.mp h
      simp [hp.isInfix]
    | false =>
      rw [firstIndex_cons_neg _ _ _ h, Option.map_eq_none', ih, List.infix_cons_iff]
      have hp : ¬ sub <+: c :: s := fun hp => by
        rw [List.isPrefixOf_iff_prefix.mpr hp] at h; exact Bool.noConfusion h
      tauto

theorem firstIndex_some_spec (sub s : GoString) (i : Nat) (h : firstIndex sub s = some i) :
    s = s.take i ++ sub ++ s.drop (i + sub.length) ∧ i + sub.length ≤ s.length := by
  induction s generalizing i with
  | nil =>
    by_cases hs : sub = []
    · simp [firstIndex, hs] at h; subst h; simp [hs]
    · simp [firstIndex, hs] at h
  | cons c s ih =>
    cases hp : sub.isPrefixOf (c :: s) with
    | true =>
      rw [firstIndex_cons_pos _ _ _ hp, Option.some.injEq] at h
      subst h
      obtain ⟨t, ht⟩ := List.isPrefixOf_iff_prefix.mp hp
      constructor
      · simp only [List.take_zero, List.nil_append, Nat.zero_add]
        rw [← ht, List.drop_left]
      · rw [← ht]; simp
    | false =>
      rw [firstIndex_cons_neg _ _ _ hp, Option.map_eq_some'] at h
      obtain ⟨j, hj, rfl⟩ := h
      obtain ⟨h1, h2⟩ := ih j hj
      constructor
      · have : j + 1 + sub.length = (j + sub.length) + 1 := by omega
        rw [this, List.take_succ_cons, List.drop_succ_cons, List.cons_append, List.cons_append,
          ← h1]
      · simp; omega

theorem firstIndex_append_borderless (w pre post : GoString) (hw : Borderless w)
    (hpre : ¬ w <:+: pre) : firstIndex w (pre ++ w ++ post) = some pre.length := by
  induction pre with
  | nil =>
    cases w with
    | nil => simp [firstIndex_nil_left]
    | cons a w => simp [firstIndex]
  | cons c pre ih =>
    have hpre' : ¬ w <:+: pre := fun h => hpre (List.infix_cons h)
    have hnp : w.isPrefixOf (c :: (pre ++ w ++ post)) = false := by
      rw [Bool.eq_false_iff]
      intro hp
      have hp : w <+: (c :: pre) ++ (w ++ post) := by
        have := List.isPrefixOf_iff_prefix.mp hp
        simpa [List.append_assoc] using this
      rcases List.prefix_or_prefix_of_prefix hp (List.prefix_append (c :: pre) (w ++ post)) with
        h1 | h1
      · exact hpre h1.isInfix
      · obtain ⟨t, ht⟩ := h1
        have hlen : w.length = (c :: pre).length + t.length := by rw [← ht, List.length_append]
        have ht2 : t <+: w ++ post := by
          have hp2 : (c :: pre) ++ t <+: (c :: pre) ++ (w ++ post) := by rw [ht]; exact hp
          exact (List.prefix_append_right_inj _).mp hp2
        have ht3 : t <+: w :=
          List.prefix_of_prefix_length_le ht2 (List.prefix_append w post) (by omega)
        have hdrop : w.drop (c :: pre).length = t := by rw [← ht, List.drop_left]
        by_cases hk : (c :: pre).length < w.length
        · have := hw (c :: pre).length hk (by simp)
          rw [hdrop] at this
          rw [List.isPrefixOf_iff_prefix.mpr ht3] at this
          exact Bool.noConfusion this
        · have : t = [] := by
            apply List.eq_nil_of_length_eq_zero; omega
          subst this
          rw [List.append_nil] at ht
          exact hpre (ht ▸ List.infix_refl _)
    have hrec := ih hpre'
    show firstIndex w (c :: (pre ++ w ++ post)) = _
    rw [firstIndex_cons_neg _ _ _ hnp, hrec]
    rfl

theorem firstIndex_isSome_iff (sub s : GoString) :
    (firstIndex sub s).isSome = true ↔ sub <:+: s := by
  rw [← not_iff_not, ← firstIndex_eq_none_iff]
  cases firstIndex sub s <;> simp

theorem Contains_iff_substring (s sub : GoString) : Contains s sub = true ↔ sub <:+: s := by
  rw [← firstIndex_isSome_iff]
  unfold Contains Index
  cases firstIndex sub s with
  | none => simp
  | some i => simp

theorem Index_of_firstIndex (s sub : GoString) (i : Nat) (h : firstIndex sub s = some i) :
    Index s sub = (i : Int) := by
  simp [Index, h]

theorem countFrom_pos (sub s : GoString) (fuel i : Nat) (h : firstIndex sub s = some i) :
    countFrom sub (fuel + 1) s ≠ 0 := by
  simp [countFrom, h]

theorem scriptHead_ne_nil : scriptHead ≠ [] := by decide

theorem script_ne_nil (cfg : Config) : script cfg ≠ [] := by
  intro h
  have h1 : (script cfg).length = 0 := by rw [h]; rfl
  have h2 : 0 < scriptHead.length := List.length_pos.mpr scriptHead_ne_nil
  simp only [script, List.length_append] at h1
  omega

theorem closingHead_borderless : Borderless (str "</head>") := by decide

/-- `Replace` with `n = 1` on a string that holds `old`: the first instance is replaced. -/
theorem Replace_one_of_firstIndex (s old new : GoString) (j : Nat) (hne : old ≠ new)
    (h : firstIndex old s = some j) :
    Replace s old new 1 = s.take j ++ new ++ s.drop (j + old.length) := by
  have hc : Count s old ≠ 0 := countFrom_pos old s s.length j h
  have hn : (if (1 : Int) < 0 ∨ ((Count s old : Nat) : Int) < 1 then Count s old
      else (1 : Int).toNat) = 1 := by
    have : ¬ ((1 : Int) < 0 ∨ ((Count s old : Nat) : Int) < 1) := by omega
    rw [if_neg this]; rfl
  unfold Replace
  rw [if_neg (by simp [hne])]
  simp only [hc, if_false, hn]
  simp [replaceLoop, h]

/-- `Replace` leaves a string that does not hold `old` as it is. -/
theorem Replace_of_absent (s old new : GoString) (n : Int) (h : ¬ old <:+: s) :
    Replace s old new n = s := by
  have hnone : firstIndex old s = none := (firstIndex_eq_none_iff old s).mpr h
  have hc : Count s old = 0 := by simp [Count, countFrom, hnone]
  unfold Replace
  split
  · rfl
  · simp [hc]

/-- The first closing head tag is where `injectScript` puts its block. -/
theorem injectScript_of_split (cfg : Config) (h pre post : GoString)
    (hh : h = pre ++ str "</head>" ++ post) (hpre : ¬ str "</head>" <:+: pre) :
    injectScript cfg h = pre ++ script cfg ++ str "</head>" ++ post := by
  have hidx : firstIndex (str "</head>") h = some pre.length := by
    rw [hh]; exact firstIndex_append_borderless _ pre post closingHead_borderless hpre
  have hne : str "</head>" ≠ script cfg ++ str "</head>" := by
    intro he
    have hl := congrArg List.length he
    have := List.length_pos.mpr (script_ne_nil cfg)
    simp only [List.length_append] at hl
    omega
  unfold injectScript
  rw [Replace_one_of_firstIndex h _ _ pre.length hne hidx, hh]
  simp [List.append_assoc]

/-- C2. `injectScript` puts the block `script cfg` right before the first `</head>`: for
`h = pre ++ "</head>" ++ post` with no `</head>` in `pre` the result is
`pre ++ script cfg ++ "</head>" ++ post`; the block is not empty, so the result is longer
than `h` by exactly the length of the block; and a document with no `</head>` comes back
unchanged. -/
theorem injectScript_inserts_block (cfg : Config) (h : GoString) :
    (∀ pre post : GoString, h = pre ++ str "</head>" ++ post → ¬ str "</head>" <:+: pre →
        injectScript cfg h = pre ++ script cfg ++ str "</head>" ++ post ∧
        script cfg ≠ [] ∧
        (injectScript cfg h).length = h.length + (script cfg).length ∧
        h.length < (injectScript cfg h).length) ∧
    (¬ str "</head>" <:+: h → injectScript cfg h = h) := by
  constructor
  · intro pre post hh hpre
    have hout := injectScript_of_split cfg h pre post hh hpre
    have hpos := List.length_pos.mpr (script_ne_nil cfg)
    refine ⟨hout, script_ne_nil cfg, ?_, ?_⟩
    · rw [hout, hh]; simp only [List.length_append]; omega
    · rw [hout, hh]; simp only [List.length_append]; omega
  · intro hno
    exact Replace_of_absent h _ _ 1 hno

/-- C2 at `<html><head></head><body></body></html>`, and at a document without a closing
head tag. -/
theorem injectScript_inserts_block_witness :
    injectScript exampleConfig (str "<html><head></head><body></body></html>") =
        str "<html><head>" ++ script exampleConfig ++ str "</head>" ++ str "<body></body></html>" ∧
      (injectScript exampleConfig (str "<html><head></head><body></body></html>")).length =
        (str "<html><head></head><body></body></html>").length + (script exampleConfig).length ∧
      injectScript exampleConfig (str "<p>no head</p>") = str "<p>no head</p>" :=
  ⟨((injectScript_inserts_block exampleConfig _).1 (str "<html><head>")
      (str "<body></body></html>") (by decide) (by decide)).1,
   ((injectScript_inserts_block exampleConfig _).1 (str "<html><head>")
      (str "<body></body></html>") (by decide) (by decide)).2.2.1,
   (injectScript_inserts_block exampleConfig _).2 (by decide)⟩

/-- C1. Once the backend has answered, `proxyRequest` hands the response to exactly one of
its three branches: to `handlePublicPageData` when the path is `api/v3/getPublicPageData`,
whatever the content type; otherwise to `handleHTMLResponse` when the `Content-Type` holds
`text/html`; otherwise to `handleDefaultResponse`. -/
theorem proxyRequest_selects_branch (env : Env) (cfg : Config) (w : ResponseWriter)
    (r : Request) (path requestURL : GoString) (req : ClientRequest) (resp : Response)
    (hurl : buildRequestURL cfg r = some requestURL)
    (hreq : createProxyRequest env r requestURL = .ok req)
    (hsend : sendProxyRequest env req = .ok resp) :
    (path = str "api/v3/getPublicPageData" →
      proxyRequest env cfg w r path = some (handlePublicPageData env
        { w with header := Header.AddAll w.header resp.Header } resp)) ∧
    (path ≠ str "api/v3/getPublicPageData" →
      str "text/html" <:+: resp.Header.Get (str "Content-Type") →
      proxyRequest env cfg w r path = some (handleHTMLResponse env cfg
        { w with header := Header.AddAll w.header resp.Header } resp)) ∧
    (path ≠ str "api/v3/getPublicPageData" →
      ¬ str "text/html" <:+: resp.Header.Get (str "Content-Type") →
      proxyRequest env cfg w r path = some (handleDefaultResponse
        { w with header := Header.AddAll w.header resp.Header } resp)) := by
  refine ⟨?_, ?_, ?_⟩
  · intro hp
    simp [proxyRequest, hurl, hreq, hsend, hp]
  · intro hp hc
    have hc2 := (Contains_iff_substring _ _).mpr hc
    simp [proxyRequest, hurl, hreq, hsend, hp, hc2]
  · intro hp hc
    have hc2 : Contains (resp.Header.Get (str "Content-Type")) (str "text/html") = false := by
      rw [Bool.eq_false_iff]; exact fun h => hc ((Contains_iff_substring _ _).mp h)
    simp [proxyRequest, hurl, hreq, hsend, hp, hc2]

/-- C1 at the path `some-page` answered with `text/html; charset=utf-8`: the HTML branch. -/
theorem proxyRequest_selects_branch_witness :
    proxyRequest (exampleEnv htmlResponse) exampleConfig ResponseWriter.fresh
        (getRequest (str "/some-page") []) (str "some-page") =
      some (handleHTMLResponse (exampleEnv htmlResponse) exampleConfig
        { ResponseWriter.fresh with
          header := Header.AddAll ResponseWriter.fresh.header htmlResponse.Header }
        htmlResponse) :=
  (proxyRequest_selects_branch (exampleEnv htmlResponse) exampleConfig ResponseWriter.fresh
    (getRequest (str "/some-page") []) (str "some-page") (str "https://notion.site/some-page")
    { Method := str "GET", URL := str "https://notion.site/some-page",
      Header := Header.AddAll Header.empty Header.empty, Body := { data := [] } }
    htmlResponse (by decide) rfl rfl).2.1 (by decide) (by decide)


theorem Header.add_values (h : Header) (key : GoString) (values : List GoString) :
    values.foldl (fun h2 value => h2.Add key value) h =
      fun k => if k = key then h k ++ values else h k := by
  induction values generalizing h with
  | nil => funext k; by_cases hk : k = key <;> simp [hk]
  | cons v vs ih =>
    rw [List.foldl_cons, ih]
    funext k
    by_cases hk : k = key <;> simp [Header.Add, hk]

/-- The copy loop of `proxyRequest` and `createProxyRequest`, run over the entries of a
map (no key twice) in any order, is `Header.AddAll`. -/
theorem addEntries_eq_AddAll (dst : Header) (entries : List (GoString × List GoString))
    (hnodup : (entries.map Prod.fst).Nodup) :
    addEntries dst entries = Header.AddAll dst (headerOfEntries entries) := by
  induction entries generalizing dst with
  | nil => funext k; simp [addEntries, Header.AddAll, headerOfEntries]
  | cons e es ih =>
    obtain ⟨key, values⟩ := e
    have hnd : (es.map Prod.fst).Nodup := (List.nodup_cons.mp hnodup).2
    have hnot : key ∉ es.map Prod.fst := (List.nodup_cons.mp hnodup).1
    have hstep : addEntries dst ((key, values) :: es) =
        addEntries (fun k => if k = key then dst k ++ values else dst k) es := by
      simp only [addEntries, List.foldl_cons, Header.add_values]
    rw [hstep, ih _ hnd]
    funext k
    by_cases hk : k = key
    · subst hk
      have hl : es.lookup k = none := by
        rw [List.lookup_eq_none_iff]
        intro p hp
        have hne : p.1 ≠ k := fun he => hnot (he ▸ List.mem_map_of_mem Prod.fst hp)
        exact bne_iff_ne.mpr (Ne.symm hne)
      simp [Header.AddAll, headerOfEntries, List.lookup_cons, hl]
    · have hb : (k == key) = false := by simp [hk]
      simp [Header.AddAll, headerOfEntries, List.lookup_cons, hb, hk]

theorem GoMap.lookup_delete_self (m : GoMap) (key : GoString) :
    (m.delete key).lookup key = none := by
  induction m with
  | nil => rfl
  | cons e m ih =>
    obtain ⟨k, v⟩ := e
    by_cases h : k = key
    · simp [GoMap.delete, List.filter_cons, h] at ih ⊢
      exact ih
    · have h2 : (key == k) = false := by simp [Ne.symm h]
      simp [GoMap.delete, List.filter_cons, h, List.lookup_cons, h2] at ih ⊢
      exact ih

theorem GoMap.lookup_delete_other (m : GoMap) (key k2 : GoString) (hne : k2 ≠ key) :
    (m.delete key).lookup k2 = m.lookup k2 := by
  induction m with
  | nil => rfl
  | cons e m ih =>
    obtain ⟨k, v⟩ := e
    by_cases h : k = key
    · have h2 : (k2 == key) = false := by simp [hne]
      simp [GoMap.delete, List.filter_cons, h, List.lookup_cons, h2] at ih ⊢
      exact ih
    · by_cases h3 : k2 = k
      · simp [GoMap.delete, List.filter_cons, h, List.lookup_cons, h3]
      · have h2 : (k2 == k) = false := by simp [h3]
        simp [GoMap.delete, List.filter_cons, h, List.lookup_cons, h2] at ih ⊢
        exact ih

theorem GoMap.delete_delete (m : GoMap) (key : GoString) :
    (m.delete key).delete key = m.delete key := by
  simp [GoMap.delete, List.filter_filter]

theorem GoMap.key_not_mem_delete (m : GoMap) (key : GoString) :
    ∀ e ∈ m.delete key, e.1 ≠ key := by
  intro e he
  simp [GoMap.delete, List.mem_filter] at he
  exact he.2

/-- C3. When the body parses to the object `data`, what `handlePublicPageData` hands to
`json.Marshal` and then writes (compressed again if the backend's answer was) is
`data` without `requireInterstitial`: that object has no entry under the key, holds under
every other key what `data` holds (present or absent alike, the values as they were), is
left as it is by a second removal, and is, for any order of the entries of `data`, the
same set of entries. -/
theorem handlePublicPageData_strips (env : Env) (w : ResponseWriter) (resp : Response)
    (body : GoString) (data : GoMap)
    (hread : ReadAll (getReader env resp) = .ok body)
    (hparse : env.jsonUnmarshal body = .ok data) :
    (handlePublicPageData env w resp =
      match env.jsonMarshal (Any.map (data.delete (str "requireInterstitial"))) with
      | .error err => httpError w err 500
      | .ok modifiedJSON =>
        if resp.Header.Get (str "Content-Encoding") = str "gzip" then
          sendGzippedResponse env
            { w with header := w.header.Set (str "Content-Type") (str "application/json") }
            resp modifiedJSON
        else
          (({ w with header := w.header.Set (str "Content-Type") (str "application/json") }
            ).WriteHeader resp.StatusCode).Write modifiedJSON) ∧
    (∀ e ∈ data.delete (str "requireInterstitial"), e.1 ≠ str "requireInterstitial") ∧
    (data.delete (str "requireInterstitial")).lookup (str "requireInterstitial") = none ∧
    (∀ key, key ≠ str "requireInterstitial" →
      (data.delete (str "requireInterstitial")).lookup key = data.lookup key) ∧
    (data.delete (str "requireInterstitial")).delete (str "requireInterstitial") =
      data.delete (str "requireInterstitial") ∧
    (∀ data2 : GoMap, data2.Perm data →
      (data2.delete (str "requireInterstitial")).Perm
        (data.delete (str "requireInterstitial"))) := by
  refine ⟨?_, GoMap.key_not_mem_delete _ _, GoMap.lookup_delete_self _ _,
    fun key hk => GoMap.lookup_delete_other _ _ key hk, GoMap.delete_delete _ _, ?_⟩
  · simp only [handlePublicPageData, hread, hparse]
  · intro data2 hp
    exact hp.filter _

/-- C3 at the examples' public page data: the answer is written with status 200 and holds
the two other fields. -/
theorem handlePublicPageData_strips_witness :
    (handlePublicPageData pageDataEnv ResponseWriter.fresh pageDataResponse).body =
        str "\x7b\"betaEnabled\":false,\"spaceName\":\"potion\"\x7d" ∧
      (handlePublicPageData pageDataEnv ResponseWriter.fresh pageDataResponse).status = 200 ∧
      pageDataObject.delete (str "requireInterstitial") =
        [(str "spaceName", Any.string (str "potion")), (str "betaEnabled", Any.bool false)] :=
  ⟨by rw [(handlePublicPageData_strips pageDataEnv ResponseWriter.fresh pageDataResponse
      pageDataText pageDataObject rfl rfl).1]; rfl,
   by rw [(handlePublicPageData_strips pageDataEnv ResponseWriter.fresh pageDataResponse
      pageDataText pageDataObject rfl rfl).1]; rfl,
   by rfl⟩

theorem firstIndex_le_of_occurrence (w a b : GoString) :
    ∃ i, firstIndex w (a ++ w ++ b) = some i ∧ i ≤ a.length := by
  induction a with
  | nil =>
    refine ⟨0, ?_, Nat.le_refl _⟩
    cases hw : w ++ b with
    | nil =>
      have : w = [] := (List.append_eq_nil.mp hw).1
      simp [this, firstIndex_nil_left]
    | cons c t =>
      have hp : w.isPrefixOf (c :: t) = true := by
        rw [← hw]; exact List.isPrefixOf_iff_prefix.mpr (List.prefix_append w b)
      simpa [hw] using firstIndex_cons_pos w t c hp
  | cons c a ih =>
    obtain ⟨i, hi, hle⟩ := ih
    cases hp : w.isPrefixOf (c :: (a ++ w ++ b)) with
    | true =>
      exact ⟨0, by simpa using firstIndex_cons_pos w _ c hp, Nat.zero_le _⟩
    | false =>
      refine ⟨i + 1, ?_, by simpa using hle⟩
      have := firstIndex_cons_neg w (a ++ w ++ b) c hp
      rw [hi] at this
      simpa using this

theorem imageURLMarker_eq : imageURLMarker = imageMarker ++ str "https://" := by decide

theorem imageMarker_length : imageMarker.length = 18 := by decide

theorem imageMarker_borderless : Borderless imageMarker := by decide

/-- What `handleImageURL` returns on a URL that holds `notion.site/image/https://`: the
URL up to and including its first `notion.site/image/`, then all the rest in the
query-escaped form. -/
theorem handleImageURL_of_marker (u : GoString) (h : imageURLMarker <:+: u) :
    ∃ pre rest : GoString, u = pre ++ imageMarker ++ rest ∧
      firstIndex imageMarker u = some pre.length ∧
      str "https://" <:+: rest ∧
      handleImageURL u = some (pre ++ imageMarker ++ QueryEscape rest) := by
  obtain ⟨a, b, hab⟩ := h
  rw [imageURLMarker_eq] at hab
  have hab2 : u = a ++ imageMarker ++ (str "https://" ++ b) := by
    rw [← hab]; simp [List.append_assoc]
  obtain ⟨i, hi, hle⟩ := firstIndex_le_of_occurrence imageMarker a (str "https://" ++ b)
  rw [← hab2] at hi
  obtain ⟨hsplit, hlen⟩ := firstIndex_some_spec imageMarker u i hi
  have hprelen : (u.take i).length = i := by
    rw [List.length_take]; omega
  have hulen : u.length = a.length + imageMarker.length + (str "https://" ++ b).length := by
    rw [hab2]; simp only [List.length_append]
  -- the inner URL lies in what follows the first marker
  have hsuf1 : (str "https://" ++ b) <:+ u := ⟨a ++ imageMarker, hab2.symm⟩
  have hsuf2 : u.drop (i + imageMarker.length) <:+ u := List.drop_suffix _ _
  have hsuf : (str "https://" ++ b) <:+ u.drop (i + imageMarker.length) := by
    apply List.suffix_of_suffix_length_le hsuf1 hsuf2
    rw [List.length_drop]; omega
  have hinner : str "https://" <:+: u.drop (i + imageMarker.length) :=
    (List.prefix_append _ _).isInfix.trans hsuf.isInfix
  refine ⟨u.take i, u.drop (i + imageMarker.length), hsplit, by rw [hprelen]; exact hi,
    hinner, ?_⟩
  have hidx : Index u imageMarker = (i : Int) := Index_of_firstIndex u _ i hi
  have hfrom : sliceFrom u ((i : Int) + (imageMarker.length : Int)) =
      some (u.drop (i + imageMarker.length)) := by
    have h1 : (0 : Int) ≤ (i : Int) + (imageMarker.length : Int) ∧
        (i : Int) + (imageMarker.length : Int) ≤ (u.length : Int) := by omega
    have h2 : ((i : Int) + (imageMarker.length : Int)).toNat = i + imageMarker.length := by
      omega
    rw [sliceFrom, if_pos h1, h2]
  have hto : sliceTo u ((i : Int) + (imageMarker.length : Int)) =
      some (u.take (i + imageMarker.length)) := by
    have h1 : (0 : Int) ≤ (i : Int) + (imageMarker.length : Int) ∧
        (i : Int) + (imageMarker.length : Int) ≤ (u.length : Int) := by omega
    have h2 : ((i : Int) + (imageMarker.length : Int)).toNat = i + imageMarker.length := by
      omega
    rw [sliceTo, if_pos h1, h2]
  have hfound : Index (u.drop (i + imageMarker.length)) (str "https://") ≠ -1 := by
    have := (Contains_iff_substring _ _).mpr hinner
    unfold Contains at this
    have := of_decide_eq_true this
    omega
  have htake : u.take (i + imageMarker.length) = u.take i ++ imageMarker := by
    conv_lhs => rw [hsplit]
    rw [List.append_assoc, List.take_append_eq_append_take, List.take_append_eq_append_take]
    simp [hprelen]
  unfold handleImageURL
  rw [hidx]
  simp only [hfrom, hto, Option.bind_eq_bind, Option.some_bind, hfound, ne_eq,
    not_false_eq_true, if_true, htake]
  rfl

/-- The last step of `buildRequestURL` on a URL that holds the image marker: the raw query
follows the rewritten URL. -/
theorem buildRequestURL_of_handleImageURL (cfg : Config) (r : Request) (x : GoString)
    (h : imageURLMarker <:+: cfg.SiteDomain ++ r.Path)
    (himg : handleImageURL (cfg.SiteDomain ++ r.Path) = some x) :
    buildRequestURL cfg r =
      some (x ++ (if r.RawQuery ≠ [] then str "?" ++ r.RawQuery else [])) := by
  have hc : Contains (cfg.SiteDomain ++ r.Path) (str "notion.site/image/https://") = true :=
    (Contains_iff_substring _ _).mpr h
  unfold buildRequestURL
  simp only [hc, if_true, himg, Option.bind_eq_bind, Option.some_bind]
  by_cases hq : r.RawQuery = []
  · simp [hq]
  · simp [hq]


/-- C4, as the code has it. For every URL `u` (the backend domain followed by the inbound
path) that holds `notion.site/image/https://`, the rewritten URL is `u` up to and
including its first `notion.site/image/`, byte for byte, followed by `url.QueryEscape` of
all the rest of `u`; the raw query, if any, follows after `?`. When `https://` comes right
after that first `notion.site/image/`, this is the cut at the inner URL that the
specification describes. -/
theorem buildRequestURL_escapes_after_marker (cfg : Config) (r : Request)
    (h : imageURLMarker <:+: cfg.SiteDomain ++ r.Path) :
    ∃ pre rest : GoString, cfg.SiteDomain ++ r.Path = pre ++ imageMarker ++ rest ∧
      firstIndex imageMarker (cfg.SiteDomain ++ r.Path) = some pre.length ∧
      handleImageURL (cfg.SiteDomain ++ r.Path) = some (pre ++ imageMarker ++ QueryEscape rest) ∧
      buildRequestURL cfg r = some (pre ++ imageMarker ++ QueryEscape rest ++
        (if r.RawQuery ≠ [] then str "?" ++ r.RawQuery else [])) ∧
      (str "https://" <+: rest →
        escapeFromInnerURL (cfg.SiteDomain ++ r.Path) =
          some (pre ++ imageMarker ++ QueryEscape rest)) := by
  obtain ⟨pre, rest, hsplit, hidx, _, himg⟩ := handleImageURL_of_marker _ h
  refine ⟨pre, rest, hsplit, hidx, himg, ?_, ?_⟩
  · exact buildRequestURL_of_handleImageURL cfg r _ h himg
  · rintro ⟨inner, hinner⟩
    have hu : cfg.SiteDomain ++ r.Path = pre ++ imageURLMarker ++ inner := by
      rw [hsplit, ← hinner, imageURLMarker_eq]; simp [List.append_assoc]
    obtain ⟨k, hk, hkle⟩ := firstIndex_le_of_occurrence imageURLMarker pre inner
    rw [← hu] at hk
    obtain ⟨hksplit, -⟩ := firstIndex_some_spec imageURLMarker _ k hk
    have hklen : ((cfg.SiteDomain ++ r.Path).take k).length = k := by
      have : k ≤ (cfg.SiteDomain ++ r.Path).length := by
        rw [hu]; simp only [List.length_append]; omega
      rw [List.length_take]; omega
    obtain ⟨i, hi, hile⟩ := firstIndex_le_of_occurrence imageMarker
      ((cfg.SiteDomain ++ r.Path).take k)
      (str "https://" ++ (cfg.SiteDomain ++ r.Path).drop (k + imageURLMarker.length))
    have hrw : (cfg.SiteDomain ++ r.Path).take k ++ imageMarker ++
        (str "https://" ++ (cfg.SiteDomain ++ r.Path).drop (k + imageURLMarker.length)) =
        cfg.SiteDomain ++ r.Path := by
      have h1 : (cfg.SiteDomain ++ r.Path).take k ++ imageMarker ++
          (str "https://" ++ (cfg.SiteDomain ++ r.Path).drop (k + imageURLMarker.length)) =
          (cfg.SiteDomain ++ r.Path).take k ++ imageURLMarker ++
            (cfg.SiteDomain ++ r.Path).drop (k + imageURLMarker.length) := by
        rw [imageURLMarker_eq]; simp [List.append_assoc]
      rw [h1]; exact hksplit.symm
    rw [hrw, hidx] at hi
    have hkeq : k = pre.length := by
      have := Option.some.inj hi
      omega
    subst hkeq
    unfold escapeFromInnerURL
    rw [hk]
    simp only [Option.map_some']
    congr 1
    have e1 : (cfg.SiteDomain ++ r.Path).take (pre.length + imageMarker.length) =
        pre ++ imageMarker := by
      rw [hsplit, List.append_assoc, List.take_append_eq_append_take]
      simp
    have e2 : (cfg.SiteDomain ++ r.Path).drop (pre.length + imageMarker.length) = rest := by
      rw [hsplit, List.append_assoc, List.drop_append_eq_append_drop]
      simp
    rw [e1, e2]

/-- C4 at the example of the source: `https://notion.site/image/https://www.google.com/image.png`
becomes `https://notion.site/image/https%3A%2F%2Fwww.google.com%2Fimage.png`. -/
theorem buildRequestURL_escapes_after_marker_witness :
    (∃ pre rest : GoString,
      exampleConfig.SiteDomain ++ (getRequest (str "/image/https://www.google.com/image.png") []).Path
        = pre ++ imageMarker ++ rest ∧
      firstIndex imageMarker (exampleConfig.SiteDomain ++
        (getRequest (str "/image/https://www.google.com/image.png") []).Path) = some pre.length ∧
      handleImageURL (exampleConfig.SiteDomain ++
        (getRequest (str "/image/https://www.google.com/image.png") []).Path) =
          some (pre ++ imageMarker ++ QueryEscape rest) ∧
      buildRequestURL exampleConfig (getRequest (str "/image/https://www.google.com/image.png") [])
        = some (pre ++ imageMarker ++ QueryEscape rest ++
          (if (getRequest (str "/image/https://www.google.com/image.png") []).RawQuery ≠ []
            then str "?" ++ (getRequest (str "/image/https://www.google.com/image.png") []).RawQuery
            else [])) ∧
      (str "https://" <+: rest →
        escapeFromInnerURL (exampleConfig.SiteDomain ++
          (getRequest (str "/image/https://www.google.com/image.png") []).Path) =
          some (pre ++ imageMarker ++ QueryEscape rest))) ∧
    buildRequestURL exampleConfig (getRequest (str "/image/https://www.google.com/image.png") [])
      = some (str "https://notion.site/image/https%3A%2F%2Fwww.google.com%2Fimage.png") :=
  ⟨buildRequestURL_escapes_after_marker exampleConfig
    (getRequest (str "/image/https://www.google.com/image.png") []) (by decide), by decide⟩

/-- C4 fails as worded at `https://notion.site/image/x/notion.site/image/https://b.png`:
the code escapes everything after the first `notion.site/image/`, the `x/notion.site/image/`
before the inner URL included, while both readings of the claim leave that part unchanged. -/
theorem handleImageURL_cut_counterexample :
    imageURLMarker <:+: exampleConfig.SiteDomain ++ nestedImageRequest.Path ∧
    buildRequestURL exampleConfig nestedImageRequest =
      some (str "https://notion.site/image/x%2Fnotion.site%2Fimage%2Fhttps%3A%2F%2Fb.png") ∧
    escapeFromInnerURL (exampleConfig.SiteDomain ++ nestedImageRequest.Path) =
      some (str "https://notion.site/image/x/notion.site/image/https%3A%2F%2Fb.png") ∧
    escapeFromFirstHTTPS (exampleConfig.SiteDomain ++ nestedImageRequest.Path) =
      some (str "https://notion.site/image/x/notion.site/image/https%3A%2F%2Fb.png") ∧
    handleImageURL (exampleConfig.SiteDomain ++ nestedImageRequest.Path) ≠
      escapeFromInnerURL (exampleConfig.SiteDomain ++ nestedImageRequest.Path) ∧
    handleImageURL (exampleConfig.SiteDomain ++ nestedImageRequest.Path) ≠
      escapeFromFirstHTTPS (exampleConfig.SiteDomain ++ nestedImageRequest.Path) := by
  decide

set_option maxRecDepth 20000 in
theorem hex_digits_roundtrip : ∀ c : Byte,
    ishex (upperhex (c.val >>> 4)) = true ∧ ishex (upperhex (c.val &&& 15)) = true ∧
    (Fin.ofNat ((unhex (upperhex (c.val >>> 4)) <<< 4) % 256 |||
      unhex (upperhex (c.val &&& 15))) : Byte) = c := by
  decide

set_option maxRecDepth 20000 in
theorem unreserved_not_special : ∀ c : Byte, shouldEscape c = false → c ≠ 37 ∧ c ≠ 43 := by
  decide

theorem unescape_plus (p : Bool) (t : GoString) :
    unescape p (43 :: t) =
      (unescape p t).map (fun s => (if p then (32 : Byte) else 43) :: s) := by
  rcases t with _ | ⟨a, _ | ⟨b, t⟩⟩ <;> simp [unescape]

theorem unescape_plain (p : Bool) (c : Byte) (t : GoString) (h1 : c ≠ 37) (h2 : c ≠ 43) :
    unescape p (c :: t) = (unescape p t).map (fun s => c :: s) := by
  rcases t with _ | ⟨a, _ | ⟨b, t⟩⟩ <;> simp [unescape, h1, h2]

theorem unescape_percent (p : Bool) (a b : Byte) (t : GoString) (ha : ishex a = true)
    (hb : ishex b = true) :
    unescape p (37 :: a :: b :: t) = (unescape p t).map
      (fun s => (Fin.ofNat ((unhex a <<< 4) % 256 ||| unhex b) : Byte) :: s) := by
  rw [unescape]
  simp [ha, hb]

/-- Decoding what `url.QueryEscape` writes for one byte gives the byte back: with
`url.QueryUnescape` always, with plain percent-decoding unless the byte is a space. -/
theorem unescape_escapeByte (p : Bool) (c : Byte) (t : GoString) (hp : p = true ∨ c ≠ 32) :
    unescape p (escapeByte c ++ t) = (unescape p t).map (fun s => c :: s) := by
  unfold escapeByte
  by_cases h32 : c = 32
  · subst h32
    have hpt : p = true := hp.resolve_right (by simp)
    subst hpt
    exact unescape_plus true t
  · rw [if_neg h32]
    cases hs : shouldEscape c with
    | true =>
      obtain ⟨h1, h2, h3⟩ := hex_digits_roundtrip c
      simp only [if_true, List.cons_append, List.nil_append]
      rw [unescape_percent _ _ _ _ h1 h2, h3]
    | false =>
      obtain ⟨h1, h2⟩ := unreserved_not_special c hs
      simp only [Bool.false_eq_true, if_false, List.cons_append, List.nil_append]
      exact unescape_plain p c t h1 h2

/-- Decoding an escaped string followed by more text: the string comes back, and the
text that follows is decoded in its turn. -/
theorem unescape_QueryEscape_append (p : Bool) (s t : GoString)
    (hp : p = true ∨ ∀ b ∈ s, b ≠ 32) :
    unescape p (QueryEscape s ++ t) = (unescape p t).map (fun d => s ++ d) := by
  induction s with
  | nil => simp [QueryEscape]
  | cons c s ih =>
    have hc : p = true ∨ c ≠ 32 := hp.imp id (fun h => h c (List.mem_cons_self _ _))
    have hs : p = true ∨ ∀ b ∈ s, b ≠ 32 :=
      hp.imp id (fun h b hb => h b (List.mem_cons_of_mem _ hb))
    have hq : QueryEscape (c :: s) ++ t = escapeByte c ++ (QueryEscape s ++ t) := by
      simp [QueryEscape, List.flatMap_cons, List.append_assoc]
    rw [hq, unescape_escapeByte p c _ hc, ih hs]
    cases unescape p t <;> simp

/-- Text without `%`, and in a query component without `+`, decodes to itself. -/
theorem unescape_of_plain (p : Bool) (t : GoString)
    (h : ∀ b ∈ t, b ≠ 37 ∧ (p = true → b ≠ 43)) : unescape p t = some t := by
  induction t with
  | nil => rfl
  | cons c t ih =>
    have hc := h c (List.mem_cons_self _ _)
    have ht := ih (fun b hb => h b (List.mem_cons_of_mem _ hb))
    by_cases h43 : c = 43
    · subst h43
      have hpf : p = false := by
        cases p with
        | false => rfl
        | true => exact absurd rfl (hc.2 rfl)
      subst hpf
      rw [unescape_plus, ht]
      rfl
    · rw [unescape_plain p c t hc.1 h43, ht]
      rfl

/-- `url.QueryUnescape` undoes `url.QueryEscape`. -/
theorem QueryUnescape_QueryEscape (s : GoString) : QueryUnescape (QueryEscape s) = some s := by
  have h := unescape_QueryEscape_append true s [] (Or.inl rfl)
  simpa [QueryUnescape, unescape] using h

theorem imageMarker_eq : imageMarker = str "notion.site" ++ str "/image/" := by decide

theorem embeddedTail_of_built (cfg : Config) (x : GoString) :
    embeddedTail cfg (cfg.SiteDomain ++ str "/image/" ++ x) = x := by
  unfold embeddedTail
  exact List.drop_left' (by rw [List.length_append])

theorem unescape_querySuffix (p : Bool) (r : Request)
    (h : ∀ b ∈ r.RawQuery, b ≠ 37 ∧ (p = true → b ≠ 43)) :
    unescape p (querySuffix r) = some (querySuffix r) := by
  apply unescape_of_plain
  intro b hb
  unfold querySuffix at hb
  by_cases hq : r.RawQuery = []
  · simp [hq] at hb
  · rw [if_pos hq] at hb
    rcases List.mem_append.mp hb with h1 | h1
    · have hb63 : b = 63 := by
        have : str "?" = [(63 : Byte)] := by decide
        rw [this] at h1
        simpa using h1
      subst hb63
      exact ⟨by decide, fun _ => by decide⟩
    · exact h b h1

/-- C5, as the code has it. For an inbound image URL, that is a backend domain
`P ++ "notion.site"` (with no `notion.site/image/` inside `P`), a path `/image/` followed
by an inner URL that starts with `https://`, and a raw query: `buildRequestURL` keeps the
text up to and including `/image/` as it is, percent-encodes the inner URL and nothing
else, and appends the raw query as it is. The encoded segment decodes (`url.QueryUnescape`)
to the inner URL. The whole text after `/image/` decodes to the inner URL with its query
when the raw query holds no `%` and no `+` (`url.QueryUnescape`), and, for an inner URL
without a space, when the raw query holds no `%` (plain percent-decoding). -/
theorem buildRequestURL_image_decoding (cfg : Config) (r : Request) (P inner : GoString)
    (hdom : cfg.SiteDomain = P ++ str "notion.site") (hP : ¬ imageMarker <:+: P)
    (hpath : r.Path = str "/image/" ++ inner) (hinner : str "https://" <+: inner) :
    buildRequestURL cfg r =
      some (cfg.SiteDomain ++ str "/image/" ++ (QueryEscape inner ++ querySuffix r)) ∧
    QueryUnescape (QueryEscape inner) = some inner ∧
    ((∀ b ∈ r.RawQuery, b ≠ 37 ∧ b ≠ 43) →
      (buildRequestURL cfg r).bind (fun u => QueryUnescape (embeddedTail cfg u)) =
        some (inner ++ querySuffix r)) ∧
    ((∀ b ∈ inner, b ≠ 32) → (∀ b ∈ r.RawQuery, b ≠ 37) →
      (buildRequestURL cfg r).bind (fun u => PathUnescape (embeddedTail cfg u)) =
        some (inner ++ querySuffix r)) := by
  have hbuild : buildRequestURL cfg r =
      some (cfg.SiteDomain ++ str "/image/" ++ (QueryEscape inner ++ querySuffix r)) := by
    have hu : cfg.SiteDomain ++ r.Path = P ++ imageMarker ++ inner := by
      rw [hdom, hpath, imageMarker_eq]; simp [List.append_assoc]
    obtain ⟨tl, htl⟩ := hinner
    have hmark : imageURLMarker <:+: cfg.SiteDomain ++ r.Path := by
      refine ⟨P, tl, ?_⟩
      rw [hu, ← htl, imageURLMarker_eq]; simp [List.append_assoc]
    obtain ⟨pre, rest, hsplit, hidx, -, himg⟩ := handleImageURL_of_marker _ hmark
    have hfirst : firstIndex imageMarker (cfg.SiteDomain ++ r.Path) = some P.length := by
      rw [hu]; exact firstIndex_append_borderless _ P inner imageMarker_borderless hP
    have hlen : pre.length = P.length := by
      rw [hidx] at hfirst; exact Option.some.inj hfirst
    have heq : pre ++ (imageMarker ++ rest) = P ++ (imageMarker ++ inner) := by
      rw [← List.append_assoc, ← List.append_assoc, ← hsplit, hu]
    have hpre : pre = P := List.append_inj_left heq hlen
    have hrest : rest = inner := by
      have := List.append_inj_right heq hlen
      exact List.append_cancel_left this
    rw [buildRequestURL_of_handleImageURL cfg r _ hmark himg, hpre, hrest, hdom,
      imageMarker_eq]
    simp [List.append_assoc, querySuffix]
  refine ⟨hbuild, QueryUnescape_QueryEscape inner, ?_, ?_⟩
  · intro hq
    rw [hbuild, Option.some_bind, embeddedTail_of_built]
    unfold QueryUnescape
    rw [unescape_QueryEscape_append true inner _ (Or.inl rfl),
      unescape_querySuffix true r (fun b hb => ⟨(hq b hb).1, fun _ => (hq b hb).2⟩)]
    rfl
  · intro hsp hq
    rw [hbuild, Option.some_bind, embeddedTail_of_built]
    unfold PathUnescape
    rw [unescape_QueryEscape_append false inner _ (Or.inr hsp),
      unescape_querySuffix false r (fun b hb => ⟨hq b hb, fun h => Bool.noConfusion h⟩)]
    rfl

set_option maxRecDepth 20000 in
/-- C5 at `https://notion.site/image/https://example.com/a.png?x=1`: the request URL is
`https://notion.site/image/https%3A%2F%2Fexample.com%2Fa.png?x=1`, and what follows
`/image/` in it decodes, with either decoder, to `https://example.com/a.png?x=1`. -/
theorem buildRequestURL_image_decoding_witness :
    buildRequestURL exampleConfig (getRequest (str "/image/https://example.com/a.png") (str "x=1"))
      = some (str "https://notion.site/image/https%3A%2F%2Fexample.com%2Fa.png?x=1") ∧
    (buildRequestURL exampleConfig
        (getRequest (str "/image/https://example.com/a.png") (str "x=1"))).bind
      (fun u => QueryUnescape (embeddedTail exampleConfig u)) =
      some (str "https://example.com/a.png?x=1") ∧
    (buildRequestURL exampleConfig
        (getRequest (str "/image/https://example.com/a.png") (str "x=1"))).bind
      (fun u => PathUnescape (embeddedTail exampleConfig u)) =
      some (str "https://example.com/a.png?x=1") :=
  ⟨(buildRequestURL_image_decoding exampleConfig
      (getRequest (str "/image/https://example.com/a.png") (str "x=1")) (str "https://")
      (str "https://example.com/a.png") (by decide) (by decide) (by decide) (by decide)).1.trans
      (by decide),
   ((buildRequestURL_image_decoding exampleConfig
      (getRequest (str "/image/https://example.com/a.png") (str "x=1")) (str "https://")
      (str "https://example.com/a.png") (by decide) (by decide) (by decide)
      (by decide)).2.2.1 (by decide)).trans (by decide),
   ((buildRequestURL_image_decoding exampleConfig
      (getRequest (str "/image/https://example.com/a.png") (str "x=1")) (str "https://")
      (str "https://example.com/a.png") (by decide) (by decide) (by decide)
      (by decide)).2.2.2 (by decide) (by decide)).trans (by decide)⟩

/-- C5 fails as worded at `https://notion.site/image/https://example.com/a.png?x=%41`: the
raw query is appended as it is, so decoding what follows `/image/` also decodes the `%41` of
the query and gives `https://example.com/a.png?x=A`, not the inner URL with its query
`https://example.com/a.png?x=%41`. -/
theorem image_query_counterexample :
    buildRequestURL exampleConfig escapedQueryRequest =
      some (str "https://notion.site/image/https%3A%2F%2Fexample.com%2Fa.png?x=%41") ∧
    (buildRequestURL exampleConfig escapedQueryRequest).bind
      (fun u => QueryUnescape (embeddedTail exampleConfig u)) =
      some (str "https://example.com/a.png?x=A") ∧
    (buildRequestURL exampleConfig escapedQueryRequest).bind
      (fun u => PathUnescape (embeddedTail exampleConfig u)) =
      some (str "https://example.com/a.png?x=A") ∧
    (buildRequestURL exampleConfig escapedQueryRequest).bind
      (fun u => QueryUnescape (embeddedTail exampleConfig u)) ≠
      some (str "https://example.com/a.png" ++ querySuffix escapedQueryRequest) ∧
    (buildRequestURL exampleConfig escapedQueryRequest).bind
      (fun u => PathUnescape (embeddedTail exampleConfig u)) ≠
      some (str "https://example.com/a.png" ++ querySuffix escapedQueryRequest) := by
  decide

theorem ReadAll_ok (data : GoString) : ReadAll { data := data, err := none } = .ok data := rfl

/-- What `sendGzippedResponse` leaves in a writer whose header was not written yet, when
the compression succeeds. -/
theorem sendGzippedResponse_ok (env : Env) (w : ResponseWriter) (resp : Response)
    (content buf : GoString) (hbuf : env.gzipWrite content = .ok buf)
    (hw : w.wroteHeader = false) :
    sendGzippedResponse env w resp content =
      { header := w.header.Set (str "Content-Encoding") (str "gzip"),
        wroteHeader := true, status := resp.StatusCode,
        sentHeader := w.header.Set (str "Content-Encoding") (str "gzip"),
        body := w.body ++ buf } := by
  simp [sendGzippedResponse, hbuf, ResponseWriter.WriteHeader, ResponseWriter.Write, hw]

/-- What writing a status code and a body leaves in a writer whose header was not written
yet. -/
theorem WriteHeader_Write (w : ResponseWriter) (code : Int) (b : GoString)
    (hw : w.wroteHeader = false) :
    (w.WriteHeader code).Write b =
      { header := w.header, wroteHeader := true, status := code, sentHeader := w.header,
        body := w.body ++ b } := by
  simp [ResponseWriter.WriteHeader, ResponseWriter.Write, hw]

/-- What `http.Error` leaves in a writer whose header was not written yet. -/
theorem httpError_fresh (w : ResponseWriter) (msg : GoString) (code : Int)
    (hw : w.wroteHeader = false) :
    (httpError w msg code).status = code ∧
      (httpError w msg code).body = w.body ++ (msg ++ str "\n") := by
  simp [httpError, ResponseWriter.WriteHeader, ResponseWriter.Write, hw]

theorem getReader_of_rejected (env : Env) (resp : Response)
    (hgz : resp.Header.Get (str "Content-Encoding") = str "gzip")
    (hbad : env.gzipNewReader resp.Body = none) :
    getReader env resp = env.gzipRest resp.Body := by
  simp [getReader, hgz, hbad]

/-- C6, as the code has it. For a backend answer that declares `Content-Encoding: gzip` and
whose body `gzip.NewReader` rejects, `getReader` does not fail: it returns `resp.Body`, the
backend's stream, as the rejecting reader left it. The rewriting branches do not pass
these bytes through; they treat them as the decoded body. The HTML branch writes, under
the backend's status code, the gzip compression of `injectScript` of them; the JSON branch
answers 500 with the parser's message when they are no JSON object, and otherwise writes the
gzip compression of the stripped object under the backend's status code. -/
theorem getReader_rejected_gzip (env : Env) (cfg : Config) (w : ResponseWriter)
    (resp : Response) (data : GoString)
    (hgz : resp.Header.Get (str "Content-Encoding") = str "gzip")
    (hbad : env.gzipNewReader resp.Body = none)
    (hrest : env.gzipRest resp.Body = { data := data, err := none })
    (hw : w.wroteHeader = false) :
    getReader env resp = env.gzipRest resp.Body ∧
    ReadAll (getReader env resp) = .ok data ∧
    handleHTMLResponse env cfg w resp = sendGzippedResponse env w resp (injectScript cfg data) ∧
    (∀ buf, env.gzipWrite (injectScript cfg data) = .ok buf →
      (handleHTMLResponse env cfg w resp).status = resp.StatusCode ∧
      (handleHTMLResponse env cfg w resp).body = w.body ++ buf) ∧
    (∀ err, env.jsonUnmarshal data = .error err →
      handlePublicPageData env w resp = httpError w err 500 ∧
      (handlePublicPageData env w resp).status = 500 ∧
      (handlePublicPageData env w resp).body = w.body ++ (err ++ str "\n")) ∧
    (∀ obj js buf, env.jsonUnmarshal data = .ok obj →
      env.jsonMarshal (Any.map (obj.delete (str "requireInterstitial"))) = .ok js →
      env.gzipWrite js = .ok buf →
      (handlePublicPageData env w resp).status = resp.StatusCode ∧
      (handlePublicPageData env w resp).body = w.body ++ buf) := by
  have hreader := getReader_of_rejected env resp hgz hbad
  have hread : ReadAll (getReader env resp) = .ok data := by rw [hreader, hrest]; rfl
  have hhtml : handleHTMLResponse env cfg w resp =
      sendGzippedResponse env w resp (injectScript cfg data) := by
    simp [handleHTMLResponse, hread, hgz]
  refine ⟨hreader, hread, hhtml, ?_, ?_, ?_⟩
  · intro buf hbuf
    rw [hhtml, sendGzippedResponse_ok env w resp _ buf hbuf hw]
    exact ⟨rfl, rfl⟩
  · intro err herr
    have h1 : handlePublicPageData env w resp = httpError w err 500 := by
      simp [handlePublicPageData, hread, herr]
    rw [h1]
    exact ⟨rfl, httpError_fresh w err 500 hw⟩
  · intro obj js buf hobj hjs hbuf
    have h1 : handlePublicPageData env w resp = sendGzippedResponse env
        { w with header := w.header.Set (str "Content-Type") (str "application/json") }
        resp js := by
      simp [handlePublicPageData, hread, hobj, hjs, hgz]
    have h2 := sendGzippedResponse_ok env
      { w with header := w.header.Set (str "Content-Type") (str "application/json") }
      resp js buf hbuf hw
    rw [h1, h2]
    exact ⟨rfl, rfl⟩

/-- C6 at a backend answer of plain HTML labelled gzip: the HTML branch answers with the 23
bytes of an empty gzip member under status 200, the JSON branch with status 500. -/
theorem getReader_rejected_gzip_witness :
    (getReader (exampleEnv mislabelledResponse) mislabelledResponse).data = [] ∧
    (handleHTMLResponse (exampleEnv mislabelledResponse) exampleConfig ResponseWriter.fresh
      mislabelledResponse).status = 200 ∧
    (handleHTMLResponse (exampleEnv mislabelledResponse) exampleConfig ResponseWriter.fresh
      mislabelledResponse).body = emptyGzipMember ∧
    (handlePublicPageData (exampleEnv mislabelledResponse) ResponseWriter.fresh
      mislabelledResponse).status = 500 :=
  ⟨by rw [(getReader_rejected_gzip (exampleEnv mislabelledResponse) exampleConfig
      ResponseWriter.fresh mislabelledResponse [] rfl rfl rfl rfl).1]; rfl,
   ((getReader_rejected_gzip (exampleEnv mislabelledResponse) exampleConfig
      ResponseWriter.fresh mislabelledResponse [] rfl rfl rfl rfl).2.2.2.1
      emptyGzipMember rfl).1,
   ((getReader_rejected_gzip (exampleEnv mislabelledResponse) exampleConfig
      ResponseWriter.fresh mislabelledResponse [] rfl rfl rfl rfl).2.2.2.1
      emptyGzipMember rfl).2,
   ((getReader_rejected_gzip (exampleEnv mislabelledResponse) exampleConfig
      ResponseWriter.fresh mislabelledResponse [] rfl rfl rfl rfl).2.2.2.2.1
      (str "unexpected end of JSON input") rfl).2.1⟩

/-- C6 fails as worded at a backend answer `200` of plain HTML labelled gzip: on the HTML
branch the body written is a gzip member, not the backend's 26 bytes, and on the JSON branch
the status code is 500, not the backend's 200, and the body is the parser's message. -/
theorem gzip_fallback_counterexample :
    mislabelledResponse.Header.Get (str "Content-Encoding") = str "gzip" ∧
    (exampleEnv mislabelledResponse).gzipNewReader mislabelledResponse.Body = none ∧
    (handleHTMLResponse (exampleEnv mislabelledResponse) exampleConfig ResponseWriter.fresh
      mislabelledResponse).body ≠ mislabelledResponse.Body.data ∧
    (handleHTMLResponse (exampleEnv mislabelledResponse) exampleConfig ResponseWriter.fresh
      mislabelledResponse).body = emptyGzipMember ∧
    (handlePublicPageData (exampleEnv mislabelledResponse) ResponseWriter.fresh
      mislabelledResponse).status ≠ mislabelledResponse.StatusCode ∧
    (handlePublicPageData (exampleEnv mislabelledResponse) ResponseWriter.fresh
      mislabelledResponse).body = str "unexpected end of JSON input\n" := by
  refine ⟨by decide, rfl, ?_, ?_, ?_, ?_⟩ <;> decide

theorem contentLength_ne_contentEncoding : str "Content-Length" ≠ str "Content-Encoding" := by
  decide

theorem contentLength_ne_contentType : str "Content-Length" ≠ str "Content-Type" := by
  decide

/-- What `handleHTMLResponse` leaves in a writer whose header was not written yet, when the
body is read and, for a gzip answer, compressed without error. -/
theorem handleHTMLResponse_ok (env : Env) (cfg : Config) (w : ResponseWriter)
    (resp : Response) (body : GoString) (hw : w.wroteHeader = false)
    (hread : ReadAll (getReader env resp) = .ok body) :
    (resp.Header.Get (str "Content-Encoding") ≠ str "gzip" →
      handleHTMLResponse env cfg w resp =
        { header := w.header, wroteHeader := true, status := resp.StatusCode,
          sentHeader := w.header, body := w.body ++ injectScript cfg body }) ∧
    (resp.Header.Get (str "Content-Encoding") = str "gzip" →
      ∀ buf, env.gzipWrite (injectScript cfg body) = .ok buf →
      handleHTMLResponse env cfg w resp =
        { header := w.header.Set (str "Content-Encoding") (str "gzip"),
          wroteHeader := true, status := resp.StatusCode,
          sentHeader := w.header.Set (str "Content-Encoding") (str "gzip"),
          body := w.body ++ buf }) := by
  constructor
  · intro hgz
    simp only [handleHTMLResponse, hread, hgz, if_false]
    exact WriteHeader_Write w _ _ hw
  · intro hgz buf hbuf
    simp only [handleHTMLResponse, hread, hgz, if_true]
    exact sendGzippedResponse_ok env w resp _ buf hbuf hw

/-- What `handlePublicPageData` leaves in a writer whose header was not written yet, when
every step succeeds. -/
theorem handlePublicPageData_ok (env : Env) (w : ResponseWriter) (resp : Response)
    (body js : GoString) (data : GoMap) (hw : w.wroteHeader = false)
    (hread : ReadAll (getReader env resp) = .ok body)
    (hparse : env.jsonUnmarshal body = .ok data)
    (hjs : env.jsonMarshal (Any.map (data.delete (str "requireInterstitial"))) = .ok js) :
    (resp.Header.Get (str "Content-Encoding") ≠ str "gzip" →
      handlePublicPageData env w resp =
        { header := w.header.Set (str "Content-Type") (str "application/json"),
          wroteHeader := true, status := resp.StatusCode,
          sentHeader := w.header.Set (str "Content-Type") (str "application/json"),
          body := w.body ++ js }) ∧
    (resp.Header.Get (str "Content-Encoding") = str "gzip" →
      ∀ buf, env.gzipWrite js = .ok buf →
      handlePublicPageData env w resp =
        { header := (w.header.Set (str "Content-Type") (str "application/json")).Set
            (str "Content-Encoding") (str "gzip"),
          wroteHeader := true, status := resp.StatusCode,
          sentHeader := (w.header.Set (str "Content-Type") (str "application/json")).Set
            (str "Content-Encoding") (str "gzip"),
          body := w.body ++ buf }) := by
  constructor
  · intro hgz
    simp only [handlePublicPageData, hread, hparse, hjs, hgz, if_false]
    exact WriteHeader_Write _ _ _ hw
  · intro hgz buf hbuf
    simp only [handlePublicPageData, hread, hparse, hjs, hgz, if_true]
    exact sendGzippedResponse_ok env
      { w with header := w.header.Set (str "Content-Type") (str "application/json") }
      resp js buf hbuf hw

/-- The branch of `proxyRequest` for an answer of the backend. -/
theorem proxyRequest_of_response (env : Env) (cfg : Config) (w : ResponseWriter)
    (r : Request) (path requestURL : GoString) (req : ClientRequest) (resp : Response)
    (hurl : buildRequestURL cfg r = some requestURL)
    (hreq : createProxyRequest env r requestURL = .ok req)
    (hsend : sendProxyRequest env req = .ok resp) :
    proxyRequest env cfg w r path =
      some (if path = str "api/v3/getPublicPageData" then
          handlePublicPageData env { w with header := Header.AddAll w.header resp.Header } resp
        else if Contains (resp.Header.Get (str "Content-Type")) (str "text/html") then
          handleHTMLResponse env cfg { w with header := Header.AddAll w.header resp.Header } resp
        else handleDefaultResponse { w with header := Header.AddAll w.header resp.Header } resp)
    := by
  simp only [proxyRequest, hurl, hreq, hsend, Option.bind_eq_bind, Option.some_bind]
  split
  · rfl
  · split <;> rfl

/-- C7, as the code has it. On both rewriting branches every header of the backend is
copied to the answer, and none of the two branches touches `Content-Length`: the answer
carries exactly the `Content-Length` values of the backend, whatever the length of the
body written (the page with the block, the stripped JSON, or their compression). -/
theorem rewriting_forwards_content_length (env : Env) (cfg : Config) (r : Request)
    (path requestURL : GoString) (req : ClientRequest) (resp : Response)
    (hurl : buildRequestURL cfg r = some requestURL)
    (hreq : createProxyRequest env r requestURL = .ok req)
    (hsend : sendProxyRequest env req = .ok resp) :
    (path ≠ str "api/v3/getPublicPageData" →
      str "text/html" <:+: resp.Header.Get (str "Content-Type") →
      ∀ body, ReadAll (getReader env resp) = .ok body →
      (resp.Header.Get (str "Content-Encoding") ≠ str "gzip" →
        ∃ out, proxyRequest env cfg ResponseWriter.fresh r path = some out ∧
          out.sentHeader (str "Content-Length") = resp.Header (str "Content-Length") ∧
          out.status = resp.StatusCode ∧ out.body = injectScript cfg body) ∧
      (resp.Header.Get (str "Content-Encoding") = str "gzip" →
        ∀ buf, env.gzipWrite (injectScript cfg body) = .ok buf →
        ∃ out, proxyRequest env cfg ResponseWriter.fresh r path = some out ∧
          out.sentHeader (str "Content-Length") = resp.Header (str "Content-Length") ∧
          out.status = resp.StatusCode ∧ out.body = buf)) ∧
    (path = str "api/v3/getPublicPageData" →
      ∀ body data js, ReadAll (getReader env resp) = .ok body →
      env.jsonUnmarshal body = .ok data →
      env.jsonMarshal (Any.map (data.delete (str "requireInterstitial"))) = .ok js →
      (resp.Header.Get (str "Content-Encoding") ≠ str "gzip" →
        ∃ out, proxyRequest env cfg ResponseWriter.fresh r path = some out ∧
          out.sentHeader (str "Content-Length") = resp.Header (str "Content-Length") ∧
          out.status = resp.StatusCode ∧ out.body = js) ∧
      (resp.Header.Get (str "Content-Encoding") = str "gzip" →
        ∀ buf, env.gzipWrite js = .ok buf →
        ∃ out, proxyRequest env cfg ResponseWriter.fresh r path = some out ∧
          out.sentHeader (str "Content-Length") = resp.Header (str "Content-Length") ∧
          out.status = resp.StatusCode ∧ out.body = buf)) := by
  have hproxy := proxyRequest_of_response env cfg ResponseWriter.fresh r path requestURL req
    resp hurl hreq hsend
  have hne1 := contentLength_ne_contentEncoding
  have hne2 := contentLength_ne_contentType
  constructor
  · intro hp hc body hread
    have hc2 := (Contains_iff_substring _ _).mpr hc
    rw [if_neg hp, if_pos hc2] at hproxy
    obtain ⟨h1, h2⟩ := handleHTMLResponse_ok env cfg
      { ResponseWriter.fresh with
        header := Header.AddAll ResponseWriter.fresh.header resp.Header } resp body rfl hread
    constructor
    · intro hgz
      refine ⟨_, hproxy, ?_⟩
      rw [h1 hgz]
      simp [Header.AddAll, ResponseWriter.fresh, Header.empty]
    · intro hgz buf hbuf
      refine ⟨_, hproxy, ?_⟩
      rw [h2 hgz buf hbuf]
      simp [Header.AddAll, ResponseWriter.fresh, Header.empty, Header.Set, hne1]
  · intro hp body data js hread hparse hjs
    rw [if_pos hp] at hproxy
    obtain ⟨h1, h2⟩ := handlePublicPageData_ok env
      { ResponseWriter.fresh with
        header := Header.AddAll ResponseWriter.fresh.header resp.Header } resp body js data rfl
      hread hparse hjs
    constructor
    · intro hgz
      refine ⟨_, hproxy, ?_⟩
      rw [h1 hgz]
      simp [Header.AddAll, ResponseWriter.fresh, Header.empty, Header.Set, hne2]
    · intro hgz buf hbuf
      refine ⟨_, hproxy, ?_⟩
      rw [h2 hgz buf hbuf]
      simp [Header.AddAll, ResponseWriter.fresh, Header.empty, Header.Set, hne1, hne2]

/-- C7 at an HTML page of 13 bytes sent with `Content-Length: 13`: the answer carries the
backend's `Content-Length` and the page with the block. -/
theorem rewriting_forwards_content_length_witness :
    ∃ out, proxyRequest (exampleEnv htmlResponse) exampleConfig ResponseWriter.fresh
        (getRequest (str "/some-page") []) (str "some-page") = some out ∧
      out.sentHeader (str "Content-Length") = htmlResponse.Header (str "Content-Length") ∧
      out.status = htmlResponse.StatusCode ∧
      out.body = injectScript exampleConfig (str "<head></head>") :=
  ((rewriting_forwards_content_length (exampleEnv htmlResponse) exampleConfig
    (getRequest (str "/some-page") []) (str "some-page") (str "https://notion.site/some-page")
    { Method := str "GET", URL := str "https://notion.site/some-page",
      Header := Header.AddAll Header.empty Header.empty, Body := { data := [] } }
    htmlResponse (by decide) rfl rfl).1 (by decide) (by decide) (str "<head></head>") rfl).1
    (by decide)

/-- C7 fails as worded at a backend answer `Content-Length: 13` with the 13 bytes
`<head></head>` of HTML: the answer carries `Content-Length: 13` and a body longer than 13
bytes, the page with the block. -/
theorem content_length_counterexample :
    ∃ out, proxyRequest (exampleEnv htmlResponse) exampleConfig ResponseWriter.fresh
        (getRequest (str "/some-page") []) (str "some-page") = some out ∧
      htmlResponse.Header.Get (str "Content-Length") = str "13" ∧
      htmlResponse.Body.data.length = 13 ∧
      out.sentHeader.Get (str "Content-Length") = str "13" ∧
      out.body = str "<head>" ++ script exampleConfig ++ str "</head>" ∧
      13 < out.body.length := by
  have hproxy := proxyRequest_of_response (exampleEnv htmlResponse) exampleConfig
    ResponseWriter.fresh (getRequest (str "/some-page") []) (str "some-page")
    (str "https://notion.site/some-page")
    { Method := str "GET", URL := str "https://notion.site/some-page",
      Header := Header.AddAll Header.empty Header.empty, Body := { data := [] } }
    htmlResponse (by decide) rfl rfl
  rw [if_neg (by decide), if_pos (by decide)] at hproxy
  have hbody : injectScript exampleConfig (str "<head></head>") =
      str "<head>" ++ script exampleConfig ++ str "</head>" := by
    have := injectScript_of_split exampleConfig (str "<head></head>") (str "<head>") []
      (by decide) (by decide)
    simpa using this
  have hok := (handleHTMLResponse_ok (exampleEnv htmlResponse) exampleConfig
    { ResponseWriter.fresh with
      header := Header.AddAll ResponseWriter.fresh.header htmlResponse.Header }
    htmlResponse (str "<head></head>") rfl rfl).1 (by decide)
  rw [hok] at hproxy
  refine ⟨_, hproxy, by decide, by decide, by decide, ?_, ?_⟩
  · show [] ++ injectScript exampleConfig (str "<head></head>") = _
    rw [hbody]; rfl
  · show 13 < ([] ++ injectScript exampleConfig (str "<head></head>")).length
    have hpos := List.length_pos.mpr (script_ne_nil exampleConfig)
    rw [hbody]
    simp only [List.nil_append, List.length_append]
    have : (str "<head>").length = 6 := by decide
    have : (str "</head>").length = 7 := by decide
    omega

theorem hyphen_eq : str "-" = [(45 : Byte)] := by decide

theorem firstIndex_singleton_none (c : Byte) (s : GoString) (h : firstIndex [c] s = none) :
    c ∉ s := by
  have := (firstIndex_eq_none_iff [c] s).mp h
  intro hmem
  obtain ⟨a, b, hab⟩ := List.append_of_mem hmem
  exact this ⟨a, b, by rw [hab]; simp⟩

theorem firstIndex_singleton_some (c : Byte) (s : GoString) (j : Nat)
    (h : firstIndex [c] s = some j) :
    c ∉ s.take j ∧ s = s.take j ++ c :: s.drop (j + 1) := by
  induction s generalizing j with
  | nil => simp [firstIndex] at h
  | cons d s ih =>
    cases hp : List.isPrefixOf [c] (d :: s) with
    | true =>
      rw [firstIndex_cons_pos _ _ _ hp] at h
      have hj : j = 0 := (Option.some.inj h).symm
      subst hj
      have hcd : c = d := by simpa [List.isPrefixOf] using hp
      simp [hcd]
    | false =>
      rw [firstIndex_cons_neg _ _ _ hp] at h
      obtain ⟨i, hi, rfl⟩ := Option.map_eq_some'.mp h
      obtain ⟨h1, h2⟩ := ih i hi
      have hcd : c ≠ d := by
        intro hcd; subst hcd; simp [List.isPrefixOf] at hp
      constructor
      · simp only [List.take_succ_cons, List.mem_cons, not_or]
        exact ⟨hcd, h1⟩
      · simp only [List.take_succ_cons, List.drop_succ_cons, List.cons_append]
        rw [← h2]

theorem countFrom_singleton (c : Byte) (fuel : Nat) (s : GoString) (hf : s.length < fuel) :
    countFrom [c] fuel s = s.count c := by
  induction fuel generalizing s with
  | zero => omega
  | succ fuel ih =>
    cases h : firstIndex [c] s with
    | none =>
      have := firstIndex_singleton_none c s h
      simp [countFrom, h, List.count_eq_zero_of_not_mem this]
    | some j =>
      obtain ⟨h1, h2⟩ := firstIndex_singleton_some c s j h
      have hlen : (s.drop (j + 1)).length < fuel := by
        have hl := congrArg List.length h2
        simp only [List.length_append, List.length_cons] at hl
        omega
      have hcount : s.count c = 1 + (s.drop (j + 1)).count c := by
        conv_lhs => rw [h2]
        rw [List.count_append, List.count_eq_zero_of_not_mem h1, List.count_cons_self]
        omega
      simp only [countFrom, h, List.length_singleton]
      rw [ih _ hlen, hcount]

theorem replaceLoop_singleton (c : Byte) (n : Nat) (s : GoString) (hn : s.count c ≤ n) :
    replaceLoop [c] [] n s = s.filter (fun b => decide (b ≠ c)) := by
  induction n generalizing s with
  | zero =>
    have hz : s.count c = 0 := by omega
    have hmem : c ∉ s := List.count_eq_zero.mp hz
    rw [replaceLoop, List.filter_eq_self.mpr]
    intro b hb
    simp only [decide_eq_true_eq]
    intro hbc; subst hbc; exact hmem hb
  | succ n ih =>
    cases h : firstIndex [c] s with
    | none =>
      have hmem := firstIndex_singleton_none c s h
      simp only [replaceLoop, h]
      rw [List.filter_eq_self.mpr]
      intro b hb
      simp only [decide_eq_true_eq]
      intro hbc; subst hbc; exact hmem hb
    | some j =>
      obtain ⟨h1, h2⟩ := firstIndex_singleton_some c s j h
      have hcount : s.count c = 1 + (s.drop (j + 1)).count c := by
        conv_lhs => rw [h2]
        rw [List.count_append, List.count_eq_zero_of_not_mem h1, List.count_cons_self]
        omega
      have hrec := ih (s.drop (j + 1)) (by omega)
      have hpre : (s.take j).filter (fun b => decide (b ≠ c)) = s.take j := by
        rw [List.filter_eq_self]
        intro b hb
        simp only [decide_eq_true_eq]
        intro hbc; subst hbc; exact h1 hb
      simp only [replaceLoop, h, List.length_singleton, List.append_nil]
      rw [hrec]
      conv_rhs => rw [h2]
      rw [List.filter_append, hpre, List.filter_cons]
      simp

/-- `strings.ReplaceAll(s, "-", "")` removes every hyphen and keeps all other bytes in
their order. -/
theorem ReplaceAll_hyphen (s : GoString) :
    ReplaceAll s (str "-") [] = s.filter (fun b => decide (b ≠ 45)) := by
  rw [hyphen_eq]
  unfold ReplaceAll Replace
  rw [if_neg (by simp)]
  have hc : Count s [45] = s.count 45 := countFrom_singleton 45 _ s (Nat.lt_succ_self _)
  simp only [hc]
  split
  · rename_i hz
    have hmem : (45 : Byte) ∉ s := List.count_eq_zero.mp hz
    rw [List.filter_eq_self.mpr]
    intro b hb
    simp only [decide_eq_true_eq]
    intro hbc; subst hbc; exact hmem hb
  · have : (if (-1 : Int) < 0 ∨ ((s.count 45 : Nat) : Int) < -1 then s.count 45
        else (-1 : Int).toNat) = s.count 45 := by
      rw [if_pos (Or.inl (by decide))]
    rw [this]
    exact replaceLoop_singleton 45 _ s (Nat.le_refl _)

theorem pageURLs_foldl (env : Env) (baseURL : GoString) (blockIds : List Any)
    (acc : List URL) :
    blockIds.foldl (fun urls id =>
      match id.asString with
      | some pageId =>
        urls ++ [{ Loc := baseURL ++ str "/" ++ ReplaceAll pageId (str "-") [],
                   LastMod := env.today,
                   ChangeFreq := str "daily",
                   Priority := Float64.pointEight }]
      | none => urls) acc =
    acc ++ blockIds.filterMap (fun id => id.asString.map (fun pageId =>
      ({ Loc := baseURL ++ str "/" ++ pageId.filter (fun b => decide (b ≠ 45)),
         LastMod := env.today, ChangeFreq := str "daily",
         Priority := Float64.pointEight } : URL))) := by
  induction blockIds generalizing acc with
  | nil => simp
  | cons id ids ih =>
    rw [List.foldl_cons, ih]
    cases h : id.asString with
    | none => simp [List.filterMap_cons, h]
    | some pageId => simp [List.filterMap_cons, h, ReplaceAll_hyphen]

theorem pageURLs_eq (env : Env) (r : Request) (queryResult : GoMap) (blockIds : List Any)
    (h : blockIdsOf queryResult = some blockIds) :
    pageURLs env ((if r.TLS then str "https" else str "http") ++ str "://" ++ r.Host)
        queryResult =
      blockIds.filterMap (fun id => id.asString.map (pageURL env r)) := by
  unfold pageURLs
  rw [h]
  simp only
  rw [pageURLs_foldl]
  rfl

theorem filterMap_strings (env : Env) (r : Request) (ids : List GoString) :
    (ids.map Any.string).filterMap (fun id => id.asString.map (pageURL env r)) =
      ids.map (pageURL env r) := by
  induction ids with
  | nil => rfl
  | cons id ids ih =>
    rw [List.map_cons, List.filterMap_cons, List.map_cons, ← ih]
    rfl

theorem filterMap_length (env : Env) (r : Request) (blockIds : List Any) :
    (blockIds.filterMap (fun id => id.asString.map (pageURL env r))).length =
      (blockIds.filter (fun id => id.asString.isSome)).length := by
  induction blockIds with
  | nil => rfl
  | cons id ids ih =>
    cases h : id.asString <;> simp [List.filterMap_cons, List.filter_cons, h, ih]

/-- What `loadDatabasePages` returns once both requests were answered and parsed. -/
theorem loadDatabasePages_of_answers (env : Env) (cfg : Config) (r : Request)
    (viewID collectionID : GoString) (queryResult : GoMap) (blockIds : List Any)
    (hres : resolveCollection env cfg = .ok (viewID, collectionID))
    (hq : queryCollection env cfg collectionID viewID = .ok queryResult)
    (hids : blockIdsOf queryResult = some blockIds) :
    loadDatabasePages env cfg r =
      if (blockIds.filterMap (fun id => id.asString.map (pageURL env r))).length = 0 then
        .error (Failure.error (str "no pages found in the collection view"))
      else .ok (blockIds.filterMap (fun id => id.asString.map (pageURL env r))) := by
  unfold loadDatabasePages
  simp only [hres, hq, bind, Except.bind, pageURLs_eq env r queryResult blockIds hids]
  split <;> rfl

/-- C8. When the first request resolved a view and a collection, and the `blockIds` of the
second answer is a non-empty list of strings, the `urlset` that `handleSitemap` encodes
holds, in this order, the homepage entry (`<scheme>://<host>/<slug>`, priority 1.0) and one
entry for each identifier in the order of the backend: `<scheme>://<host>/` followed by the
identifier without its hyphens, today's date, `daily`, priority 0.8. -/
theorem sitemap_lists_pages (env : Env) (cfg : Config) (w : ResponseWriter) (r : Request)
    (viewID collectionID : GoString) (queryResult : GoMap) (ids : List GoString)
    (hres : resolveCollection env cfg = .ok (viewID, collectionID))
    (hq : queryCollection env cfg collectionID viewID = .ok queryResult)
    (hids : blockIdsOf queryResult = some (ids.map Any.string)) (hne : ids ≠ []) :
    sitemapURLSet env cfg r =
      some { Xmlns := str "http://www.sitemaps.org/schemas/sitemap/0.9",
             URLs := homeURL env cfg r :: ids.map (pageURL env r) } ∧
    handleSitemap env cfg w r =
      some (match env.xmlEncode
          { Xmlns := str "http://www.sitemaps.org/schemas/sitemap/0.9",
            URLs := homeURL env cfg r :: ids.map (pageURL env r) } with
        | .ok doc => (sitemapPrologue w).Write doc
        | .error _ => httpError (sitemapPrologue w) (str "Failed to generate sitemap") 500)
    := by
  have hload := loadDatabasePages_of_answers env cfg r viewID collectionID queryResult _
    hres hq hids
  rw [filterMap_strings] at hload
  have hlen : (ids.map (pageURL env r)).length ≠ 0 := by
    rw [List.length_map]
    exact fun h => hne (List.length_eq_zero.mp h)
  rw [if_neg hlen] at hload
  have hset : sitemapURLSet env cfg r =
      some { Xmlns := str "http://www.sitemaps.org/schemas/sitemap/0.9",
             URLs := homeURL env cfg r :: ids.map (pageURL env r) } := by
    simp only [sitemapURLSet, hload]
    rfl
  refine ⟨hset, ?_⟩
  simp only [handleSitemap, hset, Option.bind_eq_bind, Option.some_bind, sitemapPrologue]
  split <;> simp_all

/-- C8 at the scenario `view_ids: ["v1"]`, `collection_id: "c1"`,
`blockIds: ["11112222-3333-4444-5555-666677778888"]`: exactly two entries, the second
with the location `http://example.com/11112222333344445555666677778888`. -/
theorem sitemap_lists_pages_witness :
    sitemapURLSet scenarioEnv exampleConfig sitemapRequest =
      some { Xmlns := str "http://www.sitemaps.org/schemas/sitemap/0.9",
             URLs := [
               { Loc := str "http://example.com/blog", LastMod := str "2024-05-01",
                 ChangeFreq := str "daily", Priority := Float64.one },
               { Loc := str "http://example.com/11112222333344445555666677778888",
                 LastMod := str "2024-05-01", ChangeFreq := str "daily",
                 Priority := Float64.pointEight }] } :=
  (sitemap_lists_pages scenarioEnv exampleConfig ResponseWriter.fresh sitemapRequest
    (str "v1") (str "c1") (queryObjectOf [scenarioPageID]) [scenarioPageID]
    rfl rfl rfl (by decide)).1.trans (by decide)

/-- The three ways `loadDatabasePages` can go after its two requests. -/
theorem loadDatabasePages_cases (env : Env) (cfg : Config) (r : Request) :
    loadDatabasePages env cfg r =
      match resolveCollection env cfg with
      | .error e => .error e
      | .ok (viewID, collectionID) =>
        match queryCollection env cfg collectionID viewID with
        | .error e => .error e
        | .ok queryResult =>
          if (pageURLs env ((if r.TLS then str "https" else str "http") ++ str "://" ++ r.Host)
              queryResult).length = 0 then
            .error (Failure.error (str "no pages found in the collection view"))
          else
            .ok (pageURLs env ((if r.TLS then str "https" else str "http") ++ str "://" ++
              r.Host) queryResult) := by
  unfold loadDatabasePages
  cases h1 : resolveCollection env cfg with
  | error e => rfl
  | ok ids =>
    obtain ⟨viewID, collectionID⟩ := ids
    cases h2 : queryCollection env cfg collectionID viewID with
    | error e => simp [bind, Except.bind, h2]
    | ok queryResult =>
      simp only [bind, Except.bind, h2]
      split <;> rfl

/-- When `loadDatabasePages` returns an error, the sitemap holds the homepage alone. -/
theorem sitemapURLSet_of_error (env : Env) (cfg : Config) (r : Request) (msg : GoString)
    (h : loadDatabasePages env cfg r = .error (Failure.error msg)) :
    sitemapURLSet env cfg r =
      some { Xmlns := str "http://www.sitemaps.org/schemas/sitemap/0.9",
             URLs := [homeURL env cfg r] } := by
  simp only [sitemapURLSet, h]
  rfl

/-- An error of the first request is the error of `loadDatabasePages`, and the sitemap
then holds the homepage alone. -/
theorem sitemap_falls_back (env : Env) (cfg : Config) (r : Request) (msg : GoString)
    (h : resolveCollection env cfg = .error (Failure.error msg)) :
    loadDatabasePages env cfg r = .error (Failure.error msg) ∧
    sitemapURLSet env cfg r =
      some { Xmlns := str "http://www.sitemaps.org/schemas/sitemap/0.9",
             URLs := [homeURL env cfg r] } := by
  have hl : loadDatabasePages env cfg r = .error (Failure.error msg) := by
    rw [loadDatabasePages_cases, h]
  exact ⟨hl, sitemapURLSet_of_error env cfg r msg hl⟩

/-- The failure scenario of the specification: a first answer without `view_ids` gives an
error, and the sitemap holds the homepage alone. -/
theorem sitemap_without_view_ids :
    loadDatabasePages noViewEnv exampleConfig sitemapRequest =
      .error (Failure.error (str "failed to find viewID or collectionID")) ∧
    sitemapURLSet noViewEnv exampleConfig sitemapRequest =
      some { Xmlns := str "http://www.sitemaps.org/schemas/sitemap/0.9",
             URLs := [{ Loc := str "http://example.com/blog", LastMod := str "2024-05-01",
                        ChangeFreq := str "daily", Priority := Float64.one }] } := by
  constructor
  · rfl
  · decide

/-- C9 at a first answer whose `view_ids[0]` is the number `1`: the type assertion
`viewIds[0].(string)` panics, so `loadDatabasePages` returns no error and `handleSitemap`
renders no sitemap. -/
theorem loadDatabasePages_panics_on_numeric_view :
    numericViewEnv.jsonUnmarshal numericViewText = .ok numericViewObject ∧
    resolveIDs exampleConfig numericViewObject = .error Failure.panic ∧
    loadDatabasePages numericViewEnv exampleConfig sitemapRequest = .error Failure.panic ∧
    sitemapURLSet numericViewEnv exampleConfig sitemapRequest = none ∧
    (handleSitemap numericViewEnv exampleConfig ResponseWriter.fresh sitemapRequest).isNone
      = true := by
  refine ⟨rfl, rfl, rfl, ?_, ?_⟩
  · decide
  · rfl

/-- C10, as the code has it. The sitemap holds the root entry and, once both requests are
answered, one entry for each string of `blockIds`, however many the backend sends: the code
asks for a limit of 50 and does not cut the answer. So there are at most 51 entries when
every `blockIds` the backend answers with holds at most 50 identifiers. -/
theorem sitemap_entry_count (env : Env) (cfg : Config) (r : Request) (urlset : URLSet)
    (h : sitemapURLSet env cfg r = some urlset) :
    1 ≤ urlset.URLs.length ∧
    (∀ viewID collectionID queryResult blockIds,
      resolveCollection env cfg = .ok (viewID, collectionID) →
      queryCollection env cfg collectionID viewID = .ok queryResult →
      blockIdsOf queryResult = some blockIds →
      urlset.URLs.length = 1 + (blockIds.filter (fun id => id.asString.isSome)).length) ∧
    ((∀ viewID collectionID queryResult blockIds,
      resolveCollection env cfg = .ok (viewID, collectionID) →
      queryCollection env cfg collectionID viewID = .ok queryResult →
      blockIdsOf queryResult = some blockIds → blockIds.length ≤ 50) →
      urlset.URLs.length ≤ 51) := by
  have hexact : ∀ viewID collectionID queryResult blockIds,
      resolveCollection env cfg = .ok (viewID, collectionID) →
      queryCollection env cfg collectionID viewID = .ok queryResult →
      blockIdsOf queryResult = some blockIds →
      urlset.URLs.length = 1 + (blockIds.filter (fun id => id.asString.isSome)).length := by
    intro viewID collectionID queryResult blockIds hres hq hids
    have hload := loadDatabasePages_of_answers env cfg r viewID collectionID queryResult
      blockIds hres hq hids
    have hlen := filterMap_length env r blockIds
    by_cases hz : (blockIds.filterMap (fun id => id.asString.map (pageURL env r))).length = 0
    · rw [if_pos hz] at hload
      rw [sitemapURLSet_of_error env cfg r _ hload] at h
      have := Option.some.inj h
      subst this
      simp only [List.length_singleton]
      omega
    · rw [if_neg hz] at hload
      simp only [sitemapURLSet, hload] at h
      have := Option.some.inj h
      subst this
      simp only [List.length_append, List.length_singleton]
      omega
  have hone : 1 ≤ urlset.URLs.length := by
    cases hl : loadDatabasePages env cfg r with
    | ok urls =>
      simp only [sitemapURLSet, hl] at h
      have := Option.some.inj h
      subst this
      simp
    | error e =>
      cases e with
      | error msg =>
        rw [sitemapURLSet_of_error env cfg r msg hl] at h
        have := Option.some.inj h
        subst this
        simp
      | panic => simp [sitemapURLSet, hl] at h
  refine ⟨hone, hexact, ?_⟩
  intro hcap
  cases hres : resolveCollection env cfg with
  | error e =>
    cases e with
    | error msg =>
      rw [(sitemap_falls_back env cfg r msg hres).2] at h
      have := Option.some.inj h
      subst this
      simp
    | panic =>
      have hl : loadDatabasePages env cfg r = .error Failure.panic := by
        rw [loadDatabasePages_cases, hres]
      simp [sitemapURLSet, hl] at h
  | ok ids =>
    obtain ⟨viewID, collectionID⟩ := ids
    cases hq : queryCollection env cfg collectionID viewID with
    | error e =>
      have hl : loadDatabasePages env cfg r = .error e := by
        rw [loadDatabasePages_cases, hres]
        simp only [hq]
      cases e with
      | error msg =>
        rw [sitemapURLSet_of_error env cfg r msg hl] at h
        have := Option.some.inj h
        subst this
        simp
      | panic => simp [sitemapURLSet, hl] at h
    | ok queryResult =>
      cases hids : blockIdsOf queryResult with
      | none =>
        have hl : loadDatabasePages env cfg r =
            .error (Failure.error (str "no pages found in the collection view")) := by
          rw [loadDatabasePages_cases, hres]
          simp only [hq, pageURLs, hids, List.length_nil, if_true]
        rw [sitemapURLSet_of_error env cfg r _ hl] at h
        have := Option.some.inj h
        subst this
        simp
      | some blockIds =>
        have h1 := hexact viewID collectionID queryResult blockIds hres hq hids
        have h2 := hcap viewID collectionID queryResult blockIds hres hq hids
        have h3 := List.length_filter_le (fun id : Any => id.asString.isSome) blockIds
        omega

/-- C10 at the sitemap scenario: one block id, two entries. -/
theorem sitemap_entry_count_witness :
    1 ≤ (2 : Nat) ∧
    (∀ viewID collectionID queryResult blockIds,
      resolveCollection scenarioEnv exampleConfig = .ok (viewID, collectionID) →
      queryCollection scenarioEnv exampleConfig collectionID viewID = .ok queryResult →
      blockIdsOf queryResult = some blockIds →
      (2 : Nat) = 1 + (blockIds.filter (fun id => id.asString.isSome)).length) :=
  ⟨(sitemap_entry_count scenarioEnv exampleConfig sitemapRequest
      { Xmlns := str "http://www.sitemaps.org/schemas/sitemap/0.9",
        URLs := [
          { Loc := str "http://example.com/blog", LastMod := str "2024-05-01",
            ChangeFreq := str "daily", Priority := Float64.one },
          { Loc := str "http://example.com/11112222333344445555666677778888",
            LastMod := str "2024-05-01", ChangeFreq := str "daily",
            Priority := Float64.pointEight }] } (by decide)).1,
   (sitemap_entry_count scenarioEnv exampleConfig sitemapRequest
      { Xmlns := str "http://www.sitemaps.org/schemas/sitemap/0.9",
        URLs := [
          { Loc := str "http://example.com/blog", LastMod := str "2024-05-01",
            ChangeFreq := str "daily", Priority := Float64.one },
          { Loc := str "http://example.com/11112222333344445555666677778888",
            LastMod := str "2024-05-01", ChangeFreq := str "daily",
            Priority := Float64.pointEight }] } (by decide)).2.1⟩

set_option maxRecDepth 100000 in
/-- C10 fails as worded at a backend that answers the query with 51 block ids: the sitemap
holds 52 entries. -/
theorem sitemap_cap_counterexample :
    manyPageIDs.length = 51 ∧
    blockIdsOf (queryObjectOf manyPageIDs) = some (manyPageIDs.map Any.string) ∧
    (sitemapURLSet overfullEnv exampleConfig sitemapRequest).map (fun u => u.URLs.length) =
      some 52 := by
  refine ⟨by decide, rfl, by decide⟩

end Potion
